import Mathlib

/-!
# Task manager service: a verification development

A shallow embedding of the Go service (gin handlers over an `ITaskService`)
together with theorems about its request handling.

Modelling conventions.

* A Go `string` is a Lean `String`, read as its sequence of code points.
* The standard-library and third-party functions the repository calls
  (`strings.Fields`, `strings.Split`, `strings.Join`, `strings.ToLower`,
  `strings.EqualFold`, `http.StatusText`, the gin context and router, the
  validator tags) are embedded from their documented behaviour, restricted to
  the way the repository calls them; each restriction is stated at the
  definition.
* Go's Unicode case tables are outside the repository: `strings.ToLower`
  takes the lower case of a code point above ASCII from the class
  `UnicodeTables`, and every definition and theorem that lower-cases a field
  name holds for every instance of it.
* A request body is a `RequestBody`, what JSON decoding leaves; an input
  document before decoding is a `Document`, and `Document.decode` is the
  decoding step, with the parsers of UUIDs and timestamps as parameters.
* `uuid.FromString` and `uuid.NewV7` are collaborators outside the repository:
  the parser is a parameter of the handlers that call it, and the identifier
  that `uuid.NewV7` hands out while a request is served is a field of its
  context.
* The task store is reached through the interface `ITaskService` only; the
  state behind it is a type parameter `σ`, and every call made through the
  interface is recorded in the context, so that "no store call" is a
  statement about that record.
* The service of the repository, `TaskService`, is a set of one-line calls of
  gorm. gorm and the table behind it are embedded from gorm's documented
  behaviour (`DB`, `gorm.Create`, `gorm.Find`, `gorm.First`, `gorm.Updates`,
  `gorm.Delete`); the theorems about the store are stated where that
  behaviour is documented.
-/

namespace TaskManager

/-! ## Package `strings` -/

/-- Go's `unicode.IsSpace`: the Latin-1 spaces `\t \n \v \f \r`, space, U+0085,
U+00A0, and the code points with the Unicode White_Space property above
Latin-1. -/
def unicode.IsSpace (c : Char) : Bool :=
  let n := c.toNat
  n == 0x09 || n == 0x0A || n == 0x0B || n == 0x0C || n == 0x0D || n == 0x20
    || n == 0x85 || n == 0xA0 || n == 0x1680 || (0x2000 ≤ n && n ≤ 0x200A)
    || n == 0x2028 || n == 0x2029 || n == 0x202F || n == 0x205F || n == 0x3000

/-- The scan of `strings.Fields`: `cur` holds, reversed, the characters of the
field being read (Go keeps its start index instead). A field ends at a white
space character or at the end of the input; empty fields are never emitted. -/
def strings.fieldsAux : List Char → List Char → List (List Char)
  | [], cur => if cur.isEmpty then [] else [cur.reverse]
  | c :: cs, cur =>
    if unicode.IsSpace c then
      if cur.isEmpty then strings.fieldsAux cs [] else cur.reverse :: strings.fieldsAux cs []
    else strings.fieldsAux cs (c :: cur)

/-- Go's `strings.Fields(s)`: the maximal runs of non-space characters of `s`,
in order. -/
def strings.Fields (s : String) : List String :=
  (strings.fieldsAux s.data []).map String.mk

/-- Splitting a character sequence at every occurrence of `sep`; the result
always has one more piece than there are separators. -/
def strings.splitChars (sep : Char) : List Char → List (List Char)
  | [] => [[]]
  | c :: cs =>
    if c = sep then [] :: strings.splitChars sep cs
    else
      match strings.splitChars sep cs with
      | [] => [[c]]
      | p :: ps => (c :: p) :: ps

/-- Go's `strings.Split(s, sep)` for a separator of one character, which is the
only way the repository calls it (`"."` and `" "`). -/
def strings.Split (s : String) (sep : Char) : List String :=
  (strings.splitChars sep s.data).map String.mk

/-- Go's `strings.Join(elems, sep)`. -/
def strings.Join : List String → String → String
  | [], _ => ""
  | [a], _ => a
  | a :: b :: rest, sep => a ++ sep ++ strings.Join (b :: rest) sep

/-! ## Token format gate (`internal/middleware/auth_middleware.go`) -/

/-- The function `validateInputToken` of the middleware package: the guards
of the source, in the source's order. -/
def validateInputToken (s : String) : Bool :=
  -- Check if the input string is empty
  if s = "" then false
  else
    let fields := strings.Fields s
    -- Check if the input string has exactly 2 fields
    if fields.length ≠ 2 then false
    -- Check if the first field is "Bearer"
    else if fields.getD 0 "" ≠ "Bearer" then false
    else
      let parts := strings.Split (fields.getD 1 "") '.'
      -- Check if there are exactly 3 parts
      if parts.length ≠ 3 then false
      -- Check if the middle part is not an empty string
      else if parts.getD 1 "" = "" then false
      else true

/-- The gate as the specification words it: split on runs of white space there
are exactly two fields, the first is the scheme label `Bearer`, and the second
splits on `.` into exactly three segments with a non-empty middle one. -/
def TokenWellFormed (s : String) : Prop :=
  ∃ scheme token : String, strings.Fields s = [scheme, token] ∧ scheme = "Bearer" ∧
    ∃ header payload signature : String,
      strings.Split token '.' = [header, payload, signature] ∧ payload ≠ ""

/-- Go's Unicode case tables, which are outside the repository: the lower
case mapping of the code points above ASCII. -/
class UnicodeTables where
  toLower : Char → Char

/-- Go's `unicode.ToLower`: an ASCII capital is moved to its small letter, any
other ASCII character is kept, and a code point above ASCII is looked up in
the Unicode tables. -/
def unicode.ToLower [UnicodeTables] (c : Char) : Char :=
  if c.toNat < 0x80 then c.toLower else UnicodeTables.toLower c

/-- Go's `strings.ToLower`: `unicode.ToLower` on every code point. -/
def strings.ToLower [UnicodeTables] (s : String) : String :=
  String.mk (s.data.map unicode.ToLower)

/-- The representative of a character under simple case folding, for the
folding classes that contain an ASCII character: a letter and its other case,
and the two classes with a third member (the Kelvin sign U+212A with `k`, the
long s U+017F with `s`). -/
def unicode.foldKey (c : Char) : Char :=
  if c.toNat = 0x212A then 'k'
  else if c.toNat = 0x017F then 's'
  else c.toLower

/-- Go's `strings.EqualFold(s, t)`: equality under simple case folding. Exact
whenever one argument is ASCII, which holds at every call of the repository
(the second argument is the literal `"record not found"`). -/
def strings.EqualFold (s t : String) : Bool :=
  decide (s.data.map unicode.foldKey = t.data.map unicode.foldKey)

/-! ## Package `net/http` -/

def http.StatusOK : Nat := 200
def http.StatusCreated : Nat := 201
def http.StatusBadRequest : Nat := 400
def http.StatusUnauthorized : Nat := 401
def http.StatusNotFound : Nat := 404
def http.StatusInternalServerError : Nat := 500

/-- Go's `http.StatusText`, on the status codes the repository uses. -/
def http.StatusText (code : Nat) : String :=
  if code = 200 then "OK"
  else if code = 201 then "Created"
  else if code = 400 then "Bad Request"
  else if code = 401 then "Unauthorized"
  else if code = 404 then "Not Found"
  else if code = 500 then "Internal Server Error"
  else ""

/-! ## Data model (`internal/model`) -/

/-- A `uuid.UUID`: sixteen bytes, read as one number. -/
structure UUID where
  val : Nat
  deriving DecidableEq, Repr

/-- A `time.Time`; `⟨0⟩` is the zero time. -/
structure Time where
  instant : Nat
  deriving DecidableEq, Repr

/-- The record `model.Task`. Its `binding` tags are `Task.binding` below. -/
structure Task where
  ID : UUID
  Title : String
  Description : String
  Status : String
  CreatedAt : Time
  UpdatedAt : Time
  deriving DecidableEq, Repr

/-- A Go `map[string]string`, as the list of its entries with distinct keys. -/
abbrev StringMap := List (String × String)

/-- The entry `m[key]`, if there is one. -/
def StringMap.lookup : StringMap → String → Option String
  | [], _ => none
  | (k, v) :: m, key => if k = key then some v else StringMap.lookup m key

/-- The assignment `m[key] = val`: it replaces the entry of `key` or adds one. -/
def StringMap.set : StringMap → String → String → StringMap
  | [], key, val => [(key, val)]
  | (k, v) :: m, key, val =>
    if k = key then (k, val) :: m else (k, v) :: StringMap.set m key val

/-- The envelope `model.Response`. `Messages` has the Go type `any`: `none` is
the nil interface, `some m` holds the `map[string]string` the handlers store. -/
structure Response where
  Message : String := ""
  Messages : Option StringMap := none
  deriving DecidableEq, Repr

/-! ## Validation of a bound `Task` (gin binding, validator tags) -/

/-- One `validator.FieldError`: the struct field, the failing tag and the
parameter of the tag. -/
structure FieldError where
  Field : String
  Tag : String
  Param : String
  deriving DecidableEq, Repr

/-- The validator tags that occur in the `binding` tags of `model.Task`. -/
inductive Rule where
  | required
  | oneof (param : String)
  deriving DecidableEq, Repr

def Rule.Tag : Rule → String
  | .required => "required"
  | .oneof _ => "oneof"

def Rule.Param : Rule → String
  | .required => ""
  | .oneof p => p

/-- Whether a string value passes a tag: `required` wants a value other than
the zero value `""`; `oneof` wants one of the values listed, white space
separated, in its parameter. -/
def Rule.holds : Rule → String → Bool
  | .required, v => decide (v ≠ "")
  | .oneof p, v => decide (v ∈ strings.Fields p)

/-- The tags of one field are tried in order; the first that fails yields the
single error of that field. -/
def validateField (name value : String) : List Rule → List FieldError
  | [] => []
  | r :: rs =>
    if r.holds value then validateField name value rs
    else [{ Field := name, Tag := r.Tag, Param := r.Param }]

/-- The `binding` tags of `model.Task`, field by field in declaration order:
`Title` and `Description` are `required`, `Status` is
`required,oneof=pending in-progress completed`; `ID`, `CreatedAt` and
`UpdatedAt` carry none. -/
def Task.binding (t : Task) : List (String × String × List Rule) :=
  [("Title", t.Title, [.required]),
   ("Description", t.Description, [.required]),
   ("Status", t.Status, [.required, .oneof "pending in-progress completed"])]

/-- The validator run on a decoded `Task`: the errors of its fields, in
declaration order (a `validator.ValidationErrors`). -/
def ValidateStruct (t : Task) : List FieldError :=
  (t.binding.map fun f => validateField f.1 f.2.1 f.2.2).flatten

/-- A request body as JSON decoding leaves it: either it does not decode into
a `model.Task` (no body, malformed JSON, a member of the wrong type, an `id`
that is no UUID), or it is a document whose members filled the fields of a
`Task`, members that are absent leaving the zero value. -/
inductive RequestBody where
  | undecodable
  | document (t : Task)
  deriving DecidableEq, Repr

/-- The error of `c.ShouldBindJSON`: a decoding error, or the
`validator.ValidationErrors` of the decoded value. -/
inductive BindError where
  | decoding
  | validation (errs : List FieldError)
  deriving DecidableEq, Repr

/-- The call `c.ShouldBindJSON(&task)`: decode, then validate the tags. -/
def ShouldBindJSON : RequestBody → Except BindError Task
  | .undecodable => .error .decoding
  | .document t =>
    match ValidateStruct t with
    | [] => .ok t
    | e :: es => .error (.validation (e :: es))

/-- The body of the loop of `handleValidationError`: the message of one
error, chosen by its tag. -/
def validationMessage (e : FieldError) : String :=
  if e.Tag = "email" then "it must be a valid email address"
  else if e.Tag = "max" then "it must be at most " ++ e.Param ++ " characters long"
  else if e.Tag = "min" then "it must be at least " ++ e.Param ++ " characters long"
  else if e.Tag = "name" then
    "it must adhere to valid naming conventions: no digits or special characters."
  else if e.Tag = "oneof" then
    "it must be one of the following [" ++ strings.Join (strings.Split e.Param ' ') ", " ++ "]"
  else if e.Tag = "phone" then "it must be a valid phone number"
  else if e.Tag = "required" then "this is a required field"
  else "invalid value provided"

/-- The function `handleValidationError` of the handler package. The cast
`err.(validator.ValidationErrors)` yields the nil slice for any other error, so
the loop then runs no iteration. -/
def handleValidationError [UnicodeTables] (err : BindError) : StringMap :=
  let validationErrors :=
    match err with
    | .validation errs => errs
    | .decoding => []
  validationErrors.foldl
    (fun errorsMap e => StringMap.set errorsMap (strings.ToLower e.Field) (validationMessage e))
    []

/-! ## The store interface (`internal/service`) -/

/-- A Go `error` value, by the text its `Error()` method returns. -/
structure GoError where
  text : String
  deriving DecidableEq, Repr

/-- The interface `service.ITaskService` over a store state `σ`. A returned
`none` is the nil error. `CreateTask` receives a pointer to the task and may
write to it (the store sets the timestamps), so it hands the task back. -/
structure ITaskService (σ : Type) where
  CreateTask : Task → σ → (Task × Option GoError) × σ
  GetAllTasks : σ → Except GoError (List Task) × σ
  GetTaskByID : UUID → σ → Except GoError Task × σ
  UpdateTask : UUID → Task → σ → Option GoError × σ
  DeleteTask : UUID → σ → Option GoError × σ

/-- One call made through `ITaskService`, with its arguments. -/
inductive Call where
  | CreateTask (task : Task)
  | GetAllTasks
  | GetTaskByID (id : UUID)
  | UpdateTask (id : UUID) (task : Task)
  | DeleteTask (id : UUID)
  deriving DecidableEq, Repr

/-! ## The gin context -/

/-- What a handler passes to `c.JSON`: an envelope, a `gin.H` map, a task, a
slice of tasks. -/
inductive Body where
  | response (r : Response)
  | H (m : StringMap)
  | task (t : Task)
  | tasks (ts : List Task)
  deriving DecidableEq, Repr

/-- One call `c.JSON(code, obj)`. -/
structure Reply where
  code : Nat
  obj : Body
  deriving DecidableEq, Repr

/-- The inbound request: method, URL path, headers (by canonical name) and the
body as JSON decoding leaves it. -/
structure Request where
  Method : String
  Path : String
  Header : List (String × String)
  Body : RequestBody
  deriving DecidableEq, Repr

/-- The `gin.Context` of one request together with the world it runs in:
`written` lists the calls of `c.JSON` so far, `aborted` is set by `c.Abort()`,
`NewV7` is the identifier `uuid.NewV7()` returns while this request is served,
`store` is the state behind the task service and `calls` records the calls
made through `ITaskService`, in order. -/
structure Context (σ : Type) where
  Request : Request
  Params : List (String × String)
  NewV7 : UUID
  written : List Reply
  aborted : Bool
  store : σ
  calls : List Call

variable {σ : Type}

/-- The call `c.JSON(code, obj)`. -/
def Context.JSON (c : Context σ) (code : Nat) (obj : Body) : Context σ :=
  { c with written := c.written ++ [{ code := code, obj := obj }] }

/-- The call `c.Abort()`: the handlers still pending are not run. -/
def Context.Abort (c : Context σ) : Context σ :=
  { c with aborted := true }

/-- The first value of `key` in a list of pairs, or `""`. -/
def firstValue : List (String × String) → String → String
  | [], _ => ""
  | (k, v) :: rest, key => if k = key then v else firstValue rest key

/-- The call `c.Param(key)`: the value of the path parameter, or `""`. -/
def Context.Param (c : Context σ) (key : String) : String :=
  firstValue c.Params key

/-- The call `c.GetHeader(key)`: the value of the request header, or `""`. -/
def Context.GetHeader (c : Context σ) (key : String) : String :=
  firstValue c.Request.Header key

/-- A call through the service interface: it is recorded, and the store moves
to the state the service leaves. -/
def Context.invoke {α : Type} (c : Context σ) (call : Call) (f : σ → α × σ) : α × Context σ :=
  ((f c.store).1, { c with store := (f c.store).2, calls := c.calls ++ [call] })

/-- The type `gin.HandlerFunc`. -/
abbrev HandlerFunc (σ : Type) := Context σ → Context σ

/-- Running a chain of handlers, as `c.Next()` does: in order, until one
aborts. A middleware that ends with `c.Next()` is a handler that returns
without aborting: the rest of the chain runs next. -/
def runChain : List (HandlerFunc σ) → Context σ → Context σ
  | [], c => c
  | h :: rest, c => if (h c).aborted then h c else runChain rest (h c)

/-! ## Middleware (`internal/middleware/auth_middleware.go`) -/

/-- The function `AuthMiddleware`. Its last statement, `c.Next()`, is the
return without abort (see `runChain`). -/
def AuthMiddleware (c : Context σ) : Context σ :=
  let tokenString := c.GetHeader "Authorization"
  if tokenString = "" then
    (c.JSON http.StatusUnauthorized (.H [("message", "Authorization header missing")])).Abort
  -- Validate the input token
  else if !validateInputToken tokenString then
    (c.JSON http.StatusUnauthorized
      (.H [("message", "invalid authorization header format")])).Abort
  -- Call the next handler
  else c

/-! ## Handlers (`internal/handler`) -/

/-- The parser `uuid.FromString` of the UUID library, a parameter: `none`
stands for a non-nil error. -/
abbrev UUIDParser := String → Option UUID

structure HealthzHandler where
  deriving DecidableEq, Repr

def NewHealthzHandler : HealthzHandler := {}

def HealthzHandler.GetHealthz (_h : HealthzHandler) (c : Context σ) : Context σ :=
  c.JSON http.StatusOK (.response { Message := "OK" })

structure TaskHandler (σ : Type) where
  TaskService : ITaskService σ

def ErrTaskNotFound : String := "task not found"

def NewTaskHandler (taskService : ITaskService σ) : TaskHandler σ :=
  { TaskService := taskService }

def TaskHandler.GetTasks (h : TaskHandler σ) (c : Context σ) : Context σ :=
  -- Fetch all tasks from the database
  match c.invoke .GetAllTasks h.TaskService.GetAllTasks with
  | (.error _, c) =>
    c.JSON http.StatusInternalServerError
      (.response { Message := http.StatusText http.StatusInternalServerError })
  | (.ok tasks, c) => c.JSON http.StatusOK (.tasks tasks)

def TaskHandler.CreateTask [UnicodeTables] (h : TaskHandler σ) (c : Context σ) : Context σ :=
  -- Bind the JSON body to the task model
  match ShouldBindJSON c.Request.Body with
  | .error err =>
    let errMsg := handleValidationError err
    c.JSON http.StatusBadRequest (.response { Messages := some errMsg })
  | .ok task =>
    let task := { task with ID := c.NewV7 }
    match c.invoke (.CreateTask task) (h.TaskService.CreateTask task) with
    | ((_, some _), c) =>
      c.JSON http.StatusInternalServerError
        (.response { Message := http.StatusText http.StatusInternalServerError })
    | ((task, none), c) => c.JSON http.StatusCreated (.task task)

def TaskHandler.GetTaskByID (h : TaskHandler σ) (FromString : UUIDParser) (c : Context σ) :
    Context σ :=
  -- Get the task ID from the URL
  let id := c.Param "taskId"
  -- Validate the task ID
  match FromString id with
  | none =>
    c.JSON http.StatusBadRequest (.response { Message := http.StatusText http.StatusBadRequest })
  | some taskId =>
    -- Fetch the task from the database
    match c.invoke (.GetTaskByID taskId) (h.TaskService.GetTaskByID taskId) with
    | (.error err, c) =>
      if strings.EqualFold err.text "record not found" then
        c.JSON http.StatusNotFound (.response { Message := ErrTaskNotFound })
      else
        c.JSON http.StatusInternalServerError
          (.response { Message := http.StatusText http.StatusInternalServerError })
    | (.ok task, c) => c.JSON http.StatusOK (.task task)

def TaskHandler.UpdateTaskByID [UnicodeTables] (h : TaskHandler σ) (FromString : UUIDParser)
    (c : Context σ) :
    Context σ :=
  -- Get the task ID from the URL
  let id := c.Param "taskId"
  -- Validate the task ID
  match FromString id with
  | none =>
    c.JSON http.StatusBadRequest (.response { Message := http.StatusText http.StatusBadRequest })
  | some taskId =>
    -- Fetch the task from the database
    match c.invoke (.GetTaskByID taskId) (h.TaskService.GetTaskByID taskId) with
    | (.error err, c) =>
      if strings.EqualFold err.text "record not found" then
        c.JSON http.StatusNotFound (.response { Message := ErrTaskNotFound })
      else
        c.JSON http.StatusInternalServerError
          (.response { Message := http.StatusText http.StatusInternalServerError })
    | (.ok _, c) =>
      -- Bind the JSON body to the task model
      match ShouldBindJSON c.Request.Body with
      | .error err =>
        let errMsg := handleValidationError err
        c.JSON http.StatusBadRequest (.response { Messages := some errMsg })
      | .ok task =>
        -- Update the task in the database
        match c.invoke (.UpdateTask taskId task) (h.TaskService.UpdateTask taskId task) with
        | (some _, c) =>
          c.JSON http.StatusInternalServerError
            (.response { Message := http.StatusText http.StatusInternalServerError })
        | (none, c) =>
          c.JSON http.StatusOK (.response { Message := "Task updated successfully" })

def TaskHandler.DeleteTaskByID (h : TaskHandler σ) (FromString : UUIDParser) (c : Context σ) :
    Context σ :=
  -- Get the task ID from the URL
  let id := c.Param "taskId"
  -- Validate the task ID
  match FromString id with
  | none =>
    c.JSON http.StatusBadRequest (.response { Message := http.StatusText http.StatusBadRequest })
  | some taskId =>
    -- Delete the task from the database
    match c.invoke (.DeleteTask taskId) (h.TaskService.DeleteTask taskId) with
    | (some _, c) =>
      c.JSON http.StatusInternalServerError
        (.response { Message := http.StatusText http.StatusInternalServerError })
    | (none, c) =>
      c.JSON http.StatusOK (.response { Message := "Task deleted successfully" })

/-! ## The input document, before it is decoded -/

/-- A JSON value, as far as decoding a member into a field of `model.Task`
tells values apart. -/
inductive JSONValue where
  | null
  | string (s : String)
  | number (n : Int)
  | bool (b : Bool)
  | array
  | object
  deriving DecidableEq, Repr

/-- An input document: a JSON object, by the members that `model.Task` names.
`none` is an absent member; members with other names are ignored by the
decoder. -/
structure Document where
  id : Option JSONValue := none
  title : Option JSONValue := none
  description : Option JSONValue := none
  status : Option JSONValue := none
  created_at : Option JSONValue := none
  updated_at : Option JSONValue := none
  deriving DecidableEq, Repr

/-- The text of a member: the content of a JSON string, and the empty text
for a member that is absent or holds no string. -/
def Document.text : Option JSONValue → String
  | some (.string s) => s
  | _ => ""

/-- Decoding a member into a `string` field: an absent member and `null`
leave the zero value, a JSON string is taken, any other value is an error. -/
def decodeString : Option JSONValue → Option String
  | none => some ""
  | some .null => some ""
  | some (.string s) => some s
  | some _ => none

/-- Decoding a member into a `uuid.UUID` field, which unmarshals from text:
an absent member and `null` leave the zero value, a JSON string is parsed as
`uuid.FromString` parses, any other value is an error. -/
def decodeUUID (FromString : UUIDParser) : Option JSONValue → Option UUID
  | none => some ⟨0⟩
  | some .null => some ⟨0⟩
  | some (.string s) => FromString s
  | some _ => none

/-- Decoding a member into a `time.Time` field: an absent member and `null`
leave the zero time, a JSON string is parsed as a timestamp (`parseTime`, the
parser of package `time`, a parameter), any other value is an error. -/
def decodeTime (parseTime : String → Option Time) : Option JSONValue → Option Time
  | none => some ⟨0⟩
  | some .null => some ⟨0⟩
  | some (.string s) => parseTime s
  | some _ => none

/-- JSON decoding of an input document into a `model.Task`: every member has
to decode into its field. -/
def Document.decode (FromString : UUIDParser) (parseTime : String → Option Time)
    (d : Document) : RequestBody :=
  match decodeUUID FromString d.id, decodeString d.title, decodeString d.description,
      decodeString d.status, decodeTime parseTime d.created_at,
      decodeTime parseTime d.updated_at with
  | some id, some title, some description, some status, some createdAt, some updatedAt =>
    .document
      { ID := id, Title := title, Description := description, Status := status,
        CreatedAt := createdAt, UpdatedAt := updatedAt }
  | _, _, _, _, _, _ => .undecodable

/-! ## The gin router, as far as `SetupRouter` uses it -/

/-- A registered route: method, full path pattern and the chain of handlers
that serves it. -/
structure RouteInfo (σ : Type) where
  Method : String
  Path : String
  Handlers : List (HandlerFunc σ)

/-- A `gin.RouterGroup`: the middleware collected so far and the path prefix. -/
structure RouterGroup (σ : Type) where
  Handlers : List (HandlerFunc σ)
  basePath : String

/-- A `gin.Engine`: its root group and the routes registered so far. -/
structure Engine (σ : Type) where
  RouterGroup : RouterGroup σ
  trees : List (RouteInfo σ)

/-- The path of a route below a group, for a clean prefix without a trailing
slash (or the root `/`) and a relative path that starts with a slash. -/
def joinPaths (absolutePath relativePath : String) : String :=
  if relativePath = "" then absolutePath
  else if absolutePath = "/" then relativePath
  else absolutePath ++ relativePath

/-- The call `group.Group(relativePath)`: a new group that copies the
middleware the parent has at this moment. -/
def RouterGroup.Group (group : RouterGroup σ) (relativePath : String) : RouterGroup σ :=
  { Handlers := group.Handlers, basePath := joinPaths group.basePath relativePath }

/-- The call `group.Use(middleware)`: the middleware is appended to the group;
routes registered earlier keep the chain they were given. -/
def RouterGroup.Use (group : RouterGroup σ) (middleware : HandlerFunc σ) : RouterGroup σ :=
  { group with Handlers := group.Handlers ++ [middleware] }

/-- Registering a route: its chain is the middleware of the group at this
moment, followed by the handler. -/
def RouterGroup.handle (group : RouterGroup σ) (httpMethod relativePath : String)
    (handler : HandlerFunc σ) (engine : Engine σ) : Engine σ :=
  { engine with
    trees := engine.trees ++
      [{ Method := httpMethod, Path := joinPaths group.basePath relativePath,
         Handlers := group.Handlers ++ [handler] }] }

def RouterGroup.GET (group : RouterGroup σ) (relativePath : String) (handler : HandlerFunc σ)
    (engine : Engine σ) : Engine σ :=
  group.handle "GET" relativePath handler engine

def RouterGroup.POST (group : RouterGroup σ) (relativePath : String) (handler : HandlerFunc σ)
    (engine : Engine σ) : Engine σ :=
  group.handle "POST" relativePath handler engine

def RouterGroup.PUT (group : RouterGroup σ) (relativePath : String) (handler : HandlerFunc σ)
    (engine : Engine σ) : Engine σ :=
  group.handle "PUT" relativePath handler engine

def RouterGroup.DELETE (group : RouterGroup σ) (relativePath : String) (handler : HandlerFunc σ)
    (engine : Engine σ) : Engine σ :=
  group.handle "DELETE" relativePath handler engine

/-- The middleware `gin.Logger()`: it writes to the log only. -/
def gin.Logger : HandlerFunc σ := fun c => c

/-- The middleware `gin.Recovery()`: it answers a panic, which no handler of
the repository raises. -/
def gin.Recovery : HandlerFunc σ := fun c => c

/-- The engine `gin.Default()` that `main` builds. -/
def gin.Default : Engine σ :=
  { RouterGroup := { Handlers := [gin.Logger, gin.Recovery], basePath := "/" }, trees := [] }

/-- Matching the segments of a request path against those of a pattern: a
segment `:name` of the pattern takes any non-empty segment as the parameter
`name`, any other segment matches itself only. -/
def matchSegments : List String → List String → Option (List (String × String))
  | [], [] => some []
  | p :: ps, s :: ss =>
    match p.data with
    | ':' :: name =>
      if s = "" then none
      else (matchSegments ps ss).map fun params => (String.mk name, s) :: params
    | _ => if p = s then matchSegments ps ss else none
  | _, _ => none

/-- The parameters under which a request path matches a route pattern. -/
def matchPath (pattern path : String) : Option (List (String × String)) :=
  matchSegments (strings.Split pattern '/') (strings.Split path '/')

/-- The first registered route of the method whose pattern matches the path,
with the path parameters. -/
def findRoute : List (RouteInfo σ) → String → String →
    Option (RouteInfo σ × List (String × String))
  | [], _, _ => none
  | r :: rest, httpMethod, path =>
    if r.Method = httpMethod then
      match matchPath r.Path path with
      | some params => some (r, params)
      | none => findRoute rest httpMethod path
    else findRoute rest httpMethod path

/-- Serving one request: the chain of the matching route runs on a fresh
context. `none` when no registered route matches (what gin does then, a
redirect or its own 404, is not part of this development). -/
def Engine.ServeHTTP (engine : Engine σ) (req : Request) (NewV7 : UUID) (store : σ) :
    Option (Context σ) :=
  match findRoute engine.trees req.Method req.Path with
  | none => none
  | some (r, params) =>
    some (runChain r.Handlers
      { Request := req, Params := params, NewV7 := NewV7, written := [], aborted := false,
        store := store, calls := [] })

/-- The function `SetupRouter` of `internal/router/router.go`, statement by
statement; the engine and the groups are passed along explicitly. -/
def SetupRouter [UnicodeTables] (router : Engine σ) (TaskService : ITaskService σ)
    (FromString : UUIDParser) :
    Engine σ :=
  let healthzHandler := NewHealthzHandler
  let taskHandler := NewTaskHandler TaskService
  -- Healthz endpoint
  let activity := router.RouterGroup.Group "/activity"
  let router := activity.GET "/healthz" healthzHandler.GetHealthz router
  -- Task endpoints
  let tasks := router.RouterGroup.Group "/tasks"
  let router := tasks.GET "/" taskHandler.GetTasks router
  -- Auth Middleware added
  let tasks := tasks.Use AuthMiddleware
  let router := tasks.POST "/" taskHandler.CreateTask router
  let router := tasks.GET "/:taskId" (taskHandler.GetTaskByID FromString) router
  let router := tasks.PUT "/:taskId" (taskHandler.UpdateTaskByID FromString) router
  let router := tasks.DELETE "/:taskId" (taskHandler.DeleteTaskByID FromString) router
  router

/-! ## A test double for the store -/

/-- A stand-in for the task service in the manner of the repository's handler
tests: every method returns a fixed answer and the store has no state. -/
def stubService (found : Except GoError Task) (listed : Except GoError (List Task))
    (outcome : Option GoError) : ITaskService Unit :=
  { CreateTask := fun task s => ((task, outcome), s)
    GetAllTasks := fun s => (listed, s)
    GetTaskByID := fun _ s => (found, s)
    UpdateTask := fun _ _ s => (outcome, s)
    DeleteTask := fun _ s => (outcome, s) }

/-- Case tables for the concrete instances: no code point above ASCII is
moved. The field names of `model.Task` are ASCII, so the tables are not
consulted there. -/
instance stubTables : UnicodeTables := ⟨fun c => c⟩

/-- A parser for the test double: a string of decimal digits is the
identifier of that number, anything else is malformed. -/
def stubParser : UUIDParser := fun s =>
  if s.data ≠ [] ∧ s.data.all Char.isDigit then
    some { val := s.data.foldl (fun n c => 10 * n + (c.toNat - 48)) 0 }
  else none

/-- A timestamp parser for the test double: a string of decimal digits is
that instant, anything else is malformed. -/
def stubTime : String → Option Time := fun s => (stubParser s).map fun u => ⟨u.val⟩

/-- The task of the handler tests. -/
def sampleTask : Task :=
  { ID := ⟨7⟩, Title := "Task 1", Description := "Description 1", Status := "pending",
    CreatedAt := ⟨1⟩, UpdatedAt := ⟨1⟩ }

/-- The document with title "t", description "d", status "pending" and an
`id` that is no UUID. -/
def badIdDocument : Document :=
  { id := some (.string "x"), title := some (.string "t"), description := some (.string "d"),
    status := some (.string "pending") }

/-- The document whose only member is a title that is a number. -/
def numberTitleDocument : Document :=
  { title := some (.number 5) }

/-- The document of the specification's first example: description "d",
status "pending", no title. -/
def noTitleDocument : Document :=
  { description := some (.string "d"), status := some (.string "pending") }

/-- A fresh context over the stateless test double. -/
def testContext (header params : List (String × String)) (body : RequestBody) : Context Unit :=
  { Request := { Method := "GET", Path := "/", Header := header, Body := body },
    Params := params, NewV7 := ⟨9⟩, written := [], aborted := false, store := (), calls := [] }

/-! ## The task service over gorm (`internal/service/task_service.go`) -/

/-- The identifier `uuid.Nil`, the zero value of `uuid.UUID`. -/
def uuid.Nil : UUID := ⟨0⟩

/-- The database behind the `*gorm.DB` handle, as far as the service uses
it: the rows of the table of tasks in insertion order (`id` is the primary
key), the reading `now` of the clock gorm stamps rows with, and `fault`, the
failure of the backend if it has one: every statement then fails with that
error and changes nothing. -/
structure DB where
  tasks : List Task
  now : Time
  fault : Option GoError
  deriving DecidableEq, Repr

/-- The error `gorm.ErrRecordNotFound`. -/
def gorm.ErrRecordNotFound : GoError := ⟨"record not found"⟩

/-- The call `db.Create(task)`: with the backend down the statement fails at
once and the task is left as it was; otherwise gorm stamps `CreatedAt` and
`UpdatedAt` when they are blank, through the pointer, and inserts the row;
the backend refuses a second row with the same primary key. -/
def gorm.Create (task : Task) (db : DB) : (Task × Option GoError) × DB :=
  match db.fault with
  | some err => ((task, some err), db)
  | none =>
    let task :=
      { task with
        CreatedAt := if task.CreatedAt = ⟨0⟩ then db.now else task.CreatedAt,
        UpdatedAt := if task.UpdatedAt = ⟨0⟩ then db.now else task.UpdatedAt }
    if task.ID ∈ db.tasks.map Task.ID then
      ((task, some ⟨"duplicate key value violates unique constraint"⟩), db)
    else ((task, none), { db with tasks := db.tasks ++ [task] })

/-- The call `db.Find(&tasks)`: every row. -/
def gorm.Find (db : DB) : Except GoError (List Task) × DB :=
  match db.fault with
  | some err => (.error err, db)
  | none => (.ok db.tasks, db)

/-- The call `db.First(&task, "id = ?", id)`: the first row with the
identifier, or `gorm.ErrRecordNotFound`. -/
def gorm.First (id : UUID) (db : DB) : Except GoError Task × DB :=
  match db.fault with
  | some err => (.error err, db)
  | none =>
    match db.tasks.find? (fun row => decide (row.ID = id)) with
    | some row => (.ok row, db)
    | none => (.error gorm.ErrRecordNotFound, db)

/-- Whether no field of a task has a value other than the zero value. -/
def gorm.allBlank (task : Task) : Bool :=
  decide (task.ID = uuid.Nil ∧ task.Title = "" ∧ task.Description = "" ∧ task.Status = "" ∧
    task.CreatedAt = ⟨0⟩ ∧ task.UpdatedAt = ⟨0⟩)

/-- What an update with a struct writes into a row it selects: the fields of
the struct that are not blank, and `UpdatedAt`, which gorm sets to now. -/
def gorm.assign (row task : Task) (now : Time) : Task :=
  { ID := if task.ID = uuid.Nil then row.ID else task.ID,
    Title := if task.Title = "" then row.Title else task.Title,
    Description := if task.Description = "" then row.Description else task.Description,
    Status := if task.Status = "" then row.Status else task.Status,
    CreatedAt := if task.CreatedAt = ⟨0⟩ then row.CreatedAt else task.CreatedAt,
    UpdatedAt := now }

/-- The call `db.Model(&model.Task{}).Where("id = ?", id).Updates(task)` with
a struct: only the fields of `task` that are not blank are written; when
every field is blank no statement is issued at all, so there is no error
even with the backend down. The fields are set on the model
first, so a primary key in `task` joins the condition: the rows selected have
the identifier `id` and, when `task.ID` is not blank, that identifier too.
Selecting no row is no error. -/
def gorm.Updates (id : UUID) (task : Task) (db : DB) : Option GoError × DB :=
  if gorm.allBlank task then (none, db)
  else
    match db.fault with
    | some err => (some err, db)
    | none =>
      (none,
        { db with
          tasks := db.tasks.map fun row =>
            if row.ID = id ∧ (task.ID = uuid.Nil ∨ row.ID = task.ID) then
              gorm.assign row task db.now
            else row })

/-- The call `db.Delete(&model.Task{}, "id = ?", id)`: the rows with the
identifier are removed; removing none is no error. -/
def gorm.Delete (id : UUID) (db : DB) : Option GoError × DB :=
  match db.fault with
  | some err => (some err, db)
  | none => (none, { db with tasks := db.tasks.filter fun row => decide (row.ID ≠ id) })

def TaskService.CreateTask (task : Task) (db : DB) : (Task × Option GoError) × DB :=
  gorm.Create task db

def TaskService.GetAllTasks (db : DB) : Except GoError (List Task) × DB :=
  gorm.Find db

def TaskService.GetTaskByID (id : UUID) (db : DB) : Except GoError Task × DB :=
  gorm.First id db

def TaskService.UpdateTask (id : UUID) (task : Task) (db : DB) : Option GoError × DB :=
  gorm.Updates id task db

def TaskService.DeleteTask (id : UUID) (db : DB) : Option GoError × DB :=
  gorm.Delete id db

/-- The constructor `NewTaskService`: the service as an `ITaskService`; the
database handle of the source is the state the interface passes along. -/
def NewTaskService : ITaskService DB :=
  { CreateTask := TaskService.CreateTask
    GetAllTasks := TaskService.GetAllTasks
    GetTaskByID := TaskService.GetTaskByID
    UpdateTask := TaskService.UpdateTask
    DeleteTask := TaskService.DeleteTask }

/-! ## The envelope on the wire -/

/-- The value of a member of a marshalled envelope. -/
inductive Member where
  | string (s : String)
  | object (m : StringMap)
  deriving DecidableEq, Repr

/-- The members `json.Marshal` writes for a `model.Response`. Both fields are
tagged `omitempty`: `message` is left out when it is the empty string,
`messages` when the interface is nil; an interface that holds a map, even an
empty one, is written. -/
def Response.Marshal (r : Response) : List (String × Member) :=
  (if r.Message = "" then [] else [("message", .string r.Message)]) ++
  (match r.Messages with
   | none => []
   | some m => [("messages", .object m)])

/-- The invariant of the envelope as the specification words it: exactly one
of `message` and `messages` is populated, that is non-empty, and the other is
omitted. -/
def Response.ExactlyOnePopulated (r : Response) : Prop :=
  (r.Message ≠ "" ∧ r.Messages = none) ∨
  (r.Message = "" ∧ ∃ m, r.Messages = some m ∧ m ≠ [])

/-- A fresh context over the database. -/
def dbContext (params : List (String × String)) (body : RequestBody) (newID : UUID) (db : DB) :
    Context DB :=
  { Request := { Method := "GET", Path := "/", Header := [], Body := body },
    Params := params, NewV7 := newID, written := [], aborted := false, store := db, calls := [] }

/-! # Theorems -/

/-! ### Token format gate -/

theorem Fields_empty : strings.Fields "" = [] := by decide

theorem validateInputToken_iff_wellFormed (s : String) :
    validateInputToken s = true ↔ TokenWellFormed s := by
  unfold validateInputToken TokenWellFormed
  by_cases hs : s = ""
  · subst hs
    simp [Fields_empty]
  · simp only [hs, if_false]
    rcases strings.Fields s with _ | ⟨a, _ | ⟨b, _ | ⟨c, rest⟩⟩⟩
    · simp
    · simp
    · by_cases ha : a = "Bearer"
      · subst ha
        rcases hp : strings.Split b '.' with _ | ⟨x, _ | ⟨y, _ | ⟨z, _ | ⟨w, more⟩⟩⟩⟩ <;>
          simp [hp]
        constructor
        · intro hy
          exact ⟨"Bearer", b, ⟨rfl, rfl⟩, rfl, x, y, ⟨z, hp⟩, hy⟩
        · rintro ⟨_, t, ⟨-, rfl⟩, -, h, p, ⟨g, hq⟩, hne⟩
          rw [hp] at hq
          simp only [List.cons.injEq, and_true] at hq
          rw [hq.2.1]
          exact hne
      · simp [ha]
    · simp

/-- C1. `validateInputToken s` is true exactly when `s`, split on runs of
white space, has two fields, the first being `Bearer`, and the second field
splits on `.` into three segments with a non-empty middle one; it is false in
every other case. `"Bearer a.b.c"` passes; `""`, `"Token a.b.c"`,
`"Bearer a.b"` and `"Bearer a..c"` fail. -/
theorem validateInputToken_spec :
    (∀ s : String, validateInputToken s = true ↔ TokenWellFormed s) ∧
    (∀ s : String, validateInputToken s = false ↔ ¬ TokenWellFormed s) ∧
    validateInputToken "Bearer a.b.c" = true ∧
    validateInputToken "" = false ∧
    validateInputToken "Token a.b.c" = false ∧
    validateInputToken "Bearer a.b" = false ∧
    validateInputToken "Bearer a..c" = false := by
  refine ⟨validateInputToken_iff_wellFormed, ?_, by decide, by decide, by decide, by decide,
    by decide⟩
  intro s
  rw [← validateInputToken_iff_wellFormed]
  cases validateInputToken s <;> simp

/-! ### Middleware -/

/-- C3. On a request that has not been aborted, `AuthMiddleware` answers 401
and aborts, so that the rest of the chain does not run and the store is
neither called nor changed, exactly when the `Authorization` header is empty
(message "Authorization header missing") or fails `validateInputToken`
(message "invalid authorization header format"); otherwise it leaves the
context as it is and the rest of the chain runs. -/
theorem AuthMiddleware_spec (c : Context σ) (rest : List (HandlerFunc σ))
    (hc : c.aborted = false) :
    let tokenString := c.GetHeader "Authorization"
    let rejected (msg : String) : Context σ :=
      { c with
        written := c.written ++ [{ code := 401, obj := .H [("message", msg)] }],
        aborted := true }
    (tokenString = "" →
      AuthMiddleware c = rejected "Authorization header missing" ∧
      runChain (AuthMiddleware :: rest) c = rejected "Authorization header missing") ∧
    (tokenString ≠ "" → validateInputToken tokenString = false →
      AuthMiddleware c = rejected "invalid authorization header format" ∧
      runChain (AuthMiddleware :: rest) c = rejected "invalid authorization header format") ∧
    (tokenString ≠ "" → validateInputToken tokenString = true →
      AuthMiddleware c = c ∧ runChain (AuthMiddleware :: rest) c = runChain rest c) ∧
    ((AuthMiddleware c).aborted = true ↔
      (tokenString = "" ∨ validateInputToken tokenString = false)) ∧
    (∀ msg, (rejected msg).calls = c.calls ∧ (rejected msg).store = c.store) := by
  intro tokenString rejected
  refine ⟨?_, ?_, ?_, ?_, fun _ => ⟨rfl, rfl⟩⟩
  · intro h
    have h1 : AuthMiddleware c = rejected "Authorization header missing" := by
      simp only [AuthMiddleware]
      rw [if_pos h]
      rfl
    refine ⟨h1, ?_⟩
    simp only [runChain, h1]
    rfl
  · intro h hv
    have h1 : AuthMiddleware c = rejected "invalid authorization header format" := by
      simp only [AuthMiddleware]
      rw [if_neg h]
      simp only [tokenString] at hv
      simp only [hv]
      rfl
    refine ⟨h1, ?_⟩
    simp only [runChain, h1]
    rfl
  · intro h hv
    have h1 : AuthMiddleware c = c := by
      simp only [AuthMiddleware]
      rw [if_neg h]
      simp only [tokenString] at hv
      simp [hv]
    refine ⟨h1, ?_⟩
    simp [runChain, h1, hc]
  · simp only [AuthMiddleware]
    by_cases h : tokenString = ""
    · simp only [tokenString] at h ⊢
      simp [h, Context.Abort]
    · simp only [tokenString] at h ⊢
      cases hv : validateInputToken (c.GetHeader "Authorization") <;>
        simp [h, hv, hc, Context.Abort]

/-! ### Routing -/

theorem splitChars_of_not_mem (sep : Char) (l : List Char) (h : sep ∉ l) :
    strings.splitChars sep l = [l] := by
  induction l with
  | nil => rfl
  | cons a l ih =>
    have ha : a ≠ sep := fun e => h (by simp [e])
    have hl : sep ∉ l := fun e => h (by simp [e])
    simp [strings.splitChars, ha, ih hl]

theorem Split_tasks_id (id : String) (hslash : '/' ∉ id.data) :
    strings.Split ("/tasks/" ++ id) '/' = ["", "tasks", id] := by
  unfold strings.Split
  rw [String.data_append]
  have : ("/tasks/" : String).data = ['/', 't', 'a', 's', 'k', 's', '/'] := rfl
  rw [this]
  simp [strings.splitChars, splitChars_of_not_mem _ _ hslash]

theorem matchPath_param (id : String) (hid : id ≠ "") (hslash : '/' ∉ id.data) :
    matchPath "/tasks/:taskId" ("/tasks/" ++ id) = some [("taskId", id)] := by
  unfold matchPath
  rw [Split_tasks_id id hslash]
  have : strings.Split "/tasks/:taskId" '/' = ["", "tasks", ":taskId"] := by decide
  rw [this]
  simp [matchSegments, hid]

theorem matchPath_healthz_id (id : String) (hslash : '/' ∉ id.data) :
    matchPath "/activity/healthz" ("/tasks/" ++ id) = none := by
  unfold matchPath
  rw [Split_tasks_id id hslash]
  have : strings.Split "/activity/healthz" '/' = ["", "activity", "healthz"] := by decide
  rw [this]
  simp [matchSegments]

theorem matchPath_root_id (id : String) (hid : id ≠ "") (hslash : '/' ∉ id.data) :
    matchPath "/tasks/" ("/tasks/" ++ id) = none := by
  unfold matchPath
  rw [Split_tasks_id id hslash]
  have : strings.Split "/tasks/" '/' = ["", "tasks", ""] := by decide
  rw [this]
  simp [matchSegments]
  exact fun h => hid h.symm

/-- The routes `SetupRouter` registers on the engine of `main`, with the chain
of each. -/
theorem SetupRouter_trees [UnicodeTables] (svc : ITaskService σ) (FromString : UUIDParser) :
    (SetupRouter gin.Default svc FromString).trees =
      [{ Method := "GET", Path := "/activity/healthz",
         Handlers := [gin.Logger, gin.Recovery, NewHealthzHandler.GetHealthz] },
       { Method := "GET", Path := "/tasks/",
         Handlers := [gin.Logger, gin.Recovery, (NewTaskHandler svc).GetTasks] },
       { Method := "POST", Path := "/tasks/",
         Handlers := [gin.Logger, gin.Recovery, AuthMiddleware, (NewTaskHandler svc).CreateTask] },
       { Method := "GET", Path := "/tasks/:taskId",
         Handlers := [gin.Logger, gin.Recovery, AuthMiddleware,
           (NewTaskHandler svc).GetTaskByID FromString] },
       { Method := "PUT", Path := "/tasks/:taskId",
         Handlers := [gin.Logger, gin.Recovery, AuthMiddleware,
           (NewTaskHandler svc).UpdateTaskByID FromString] },
       { Method := "DELETE", Path := "/tasks/:taskId",
         Handlers := [gin.Logger, gin.Recovery, AuthMiddleware,
           (NewTaskHandler svc).DeleteTaskByID FromString] }] := by
  have h1 : joinPaths "/" "/activity" = "/activity" := by decide
  have h2 : joinPaths "/activity" "/healthz" = "/activity/healthz" := by decide
  have h3 : joinPaths "/" "/tasks" = "/tasks" := by decide
  have h4 : joinPaths "/tasks" "/" = "/tasks/" := by decide
  have h5 : joinPaths "/tasks" "/:taskId" = "/tasks/:taskId" := by decide
  simp [SetupRouter, gin.Default, RouterGroup.Group, RouterGroup.Use, RouterGroup.GET,
    RouterGroup.POST, RouterGroup.PUT, RouterGroup.DELETE, RouterGroup.handle, h1, h2, h3, h4, h5]

theorem validateInputToken_empty : validateInputToken "" = false := by decide

/-- The gate in closed form. -/
theorem AuthMiddleware_eq (c : Context σ) :
    AuthMiddleware c =
      if validateInputToken (c.GetHeader "Authorization") = true then c
      else
        { c with
          written := c.written ++ [{ code := 401, obj := .H [("message",
            if c.GetHeader "Authorization" = "" then "Authorization header missing"
            else "invalid authorization header format")] }],
          aborted := true } := by
  unfold AuthMiddleware
  by_cases he : c.GetHeader "Authorization" = ""
  · simp [he, validateInputToken_empty, Context.JSON, Context.Abort, http.StatusUnauthorized]
  · cases hv : validateInputToken (c.GetHeader "Authorization") <;>
      simp [he, hv, Context.JSON, Context.Abort, http.StatusUnauthorized]

/-- A chain that starts with the middleware of `gin.Default` and the gate, on a
fresh context: the gate decides. -/
theorem runChain_gated (h : HandlerFunc σ) (c : Context σ) (hc : c.aborted = false)
    (hw : c.written = []) :
    runChain [gin.Logger, gin.Recovery, AuthMiddleware, h] c =
      if validateInputToken (c.GetHeader "Authorization") = true then h c
      else
        { c with
          written := [{ code := 401, obj := .H [("message",
            if c.GetHeader "Authorization" = "" then "Authorization header missing"
            else "invalid authorization header format")] }],
          aborted := true } := by
  have step : runChain [gin.Logger, gin.Recovery, AuthMiddleware, h] c =
      runChain [AuthMiddleware, h] c := by
    simp [runChain, gin.Logger, gin.Recovery, hc]
  rw [step]
  cases hv : validateInputToken (c.GetHeader "Authorization")
  · simp [runChain, AuthMiddleware_eq, hv, hw]
  · simp [runChain, AuthMiddleware_eq, hv, hc]

theorem runChain_open (h : HandlerFunc σ) (c : Context σ) (hc : c.aborted = false) :
    runChain [gin.Logger, gin.Recovery, h] c = h c := by
  simp [runChain, gin.Logger, gin.Recovery, hc]

/-- C2 (as the code has it). On the engine of `main`, the token format gate
guards every route registered after `tasks.Use(AuthMiddleware)`: POST /tasks/,
GET /tasks/:taskId, PUT /tasks/:taskId and DELETE /tasks/:taskId are answered
401, with no store call, when the `Authorization` header fails the gate, and
reach their handler when it passes; GET /activity/healthz and GET /tasks/
reach their handler whatever the header is. -/
theorem SetupRouter_gated_routes [UnicodeTables] (svc : ITaskService σ) (FromString : UUIDParser)
    (header : List (String × String)) (body : RequestBody) (newID : UUID) (store : σ)
    (id : String) (hid : id ≠ "") (hslash : '/' ∉ id.data) :
    let serve (httpMethod path : String) : Option (Context σ) :=
      (SetupRouter gin.Default svc FromString).ServeHTTP
        { Method := httpMethod, Path := path, Header := header, Body := body } newID store
    let fresh (httpMethod path : String) (params : List (String × String)) : Context σ :=
      { Request := { Method := httpMethod, Path := path, Header := header, Body := body },
        Params := params, NewV7 := newID, written := [], aborted := false, store := store,
        calls := [] }
    let gate (c : Context σ) (handler : HandlerFunc σ) : Context σ :=
      if validateInputToken (firstValue header "Authorization") = true then handler c
      else
        { c with
          written := [{ code := 401, obj := .H [("message",
            if firstValue header "Authorization" = "" then "Authorization header missing"
            else "invalid authorization header format")] }],
          aborted := true }
    serve "GET" "/activity/healthz" =
      some (NewHealthzHandler.GetHealthz (fresh "GET" "/activity/healthz" [])) ∧
    serve "GET" "/tasks/" = some ((NewTaskHandler svc).GetTasks (fresh "GET" "/tasks/" [])) ∧
    serve "POST" "/tasks/" =
      some (gate (fresh "POST" "/tasks/" []) (NewTaskHandler svc).CreateTask) ∧
    serve "GET" ("/tasks/" ++ id) =
      some (gate (fresh "GET" ("/tasks/" ++ id) [("taskId", id)])
        ((NewTaskHandler svc).GetTaskByID FromString)) ∧
    serve "PUT" ("/tasks/" ++ id) =
      some (gate (fresh "PUT" ("/tasks/" ++ id) [("taskId", id)])
        ((NewTaskHandler svc).UpdateTaskByID FromString)) ∧
    serve "DELETE" ("/tasks/" ++ id) =
      some (gate (fresh "DELETE" ("/tasks/" ++ id) [("taskId", id)])
        ((NewTaskHandler svc).DeleteTaskByID FromString)) := by
  have m1 : matchPath "/activity/healthz" "/activity/healthz" = some [] := by decide
  have m2 : matchPath "/activity/healthz" "/tasks/" = none := by decide
  have m3 : matchPath "/tasks/" "/tasks/" = some [] := by decide
  have m4 := matchPath_healthz_id id hslash
  have m5 := matchPath_root_id id hid hslash
  have m6 := matchPath_param id hid hslash
  intro serve fresh gate
  have unfoldServe : ∀ req : Request,
      (SetupRouter gin.Default svc FromString).ServeHTTP req newID store =
        (findRoute (SetupRouter gin.Default svc FromString).trees req.Method req.Path).map
          fun r => runChain r.1.Handlers
            { Request := req, Params := r.2, NewV7 := newID, written := [], aborted := false,
              store := store, calls := [] } := by
    intro req
    unfold Engine.ServeHTTP
    cases findRoute (SetupRouter gin.Default svc FromString).trees req.Method req.Path <;> rfl
  simp only [serve, fresh, gate, unfoldServe]
  rw [SetupRouter_trees]
  simp only [findRoute]
  refine ⟨?_, ?_, ?_, ?_, ?_, ?_⟩
  · simp [m1, runChain_open]
  · simp [m2, m3, runChain_open]
  · simp [m2, m3, runChain_gated, Context.GetHeader]
  · simp [m4, m5, m6, runChain_gated, Context.GetHeader]
  · simp [m4, m5, m6, runChain_gated, Context.GetHeader]
  · simp [m4, m5, m6, runChain_gated, Context.GetHeader]

/-! ### Validation -/

theorem Fields_statuses :
    strings.Fields "pending in-progress completed" = ["pending", "in-progress", "completed"] := by
  decide

/-- The errors of a decoded task, field by field. -/
theorem ValidateStruct_eq (t : Task) :
    ValidateStruct t =
      (if t.Title = "" then [{ Field := "Title", Tag := "required", Param := "" }] else []) ++
      ((if t.Description = "" then [{ Field := "Description", Tag := "required", Param := "" }]
        else []) ++
       (if t.Status = "" then [{ Field := "Status", Tag := "required", Param := "" }]
        else if t.Status = "pending" ∨ t.Status = "in-progress" ∨ t.Status = "completed" then []
        else [{ Field := "Status", Tag := "oneof", Param := "pending in-progress completed" }])) := by
  simp only [ValidateStruct, Task.binding, List.map, List.flatten, validateField, Rule.holds,
    Rule.Tag, Rule.Param, Fields_statuses, List.append_nil]
  by_cases h1 : t.Title = "" <;> by_cases h2 : t.Description = "" <;>
    by_cases h3 : t.Status = "" <;>
    by_cases h4 : t.Status = "pending" ∨ t.Status = "in-progress" ∨ t.Status = "completed" <;>
    simp_all

theorem ValidateStruct_nil_iff (t : Task) :
    ValidateStruct t = [] ↔
      t.Title ≠ "" ∧ t.Description ≠ "" ∧
        (t.Status = "pending" ∨ t.Status = "in-progress" ∨ t.Status = "completed") := by
  rw [ValidateStruct_eq]
  by_cases h1 : t.Title = "" <;> by_cases h2 : t.Description = "" <;>
    by_cases h3 : t.Status = "" <;>
    by_cases h4 : t.Status = "pending" ∨ t.Status = "in-progress" ∨ t.Status = "completed" <;>
    simp_all

theorem ShouldBindJSON_document (t : Task) :
    ShouldBindJSON (.document t) =
      if ValidateStruct t = [] then .ok t else .error (.validation (ValidateStruct t)) := by
  unfold ShouldBindJSON
  cases h : ValidateStruct t <;> simp [h]

theorem handleValidationError_task [UnicodeTables] (t : Task) :
    handleValidationError (.validation (ValidateStruct t)) =
      (if t.Title = "" then [("title", "this is a required field")] else []) ++
      ((if t.Description = "" then [("description", "this is a required field")] else []) ++
       (if t.Status = "" then [("status", "this is a required field")]
        else if t.Status = "pending" ∨ t.Status = "in-progress" ∨ t.Status = "completed" then []
        else [("status", "it must be one of the following [pending, in-progress, completed]")])) := by
  have l1 : strings.ToLower "Title" = "title" := rfl
  have l2 : strings.ToLower "Description" = "description" := rfl
  have l3 : strings.ToLower "Status" = "status" := rfl
  have v1 : ∀ f : String,
      validationMessage { Field := f, Tag := "required", Param := "" } =
        "this is a required field" := fun _ => rfl
  have v2 : validationMessage
      { Field := "Status", Tag := "oneof", Param := "pending in-progress completed" } =
        "it must be one of the following [pending, in-progress, completed]" := by decide
  have d1 : ("title" : String) ≠ "description" := by decide
  have d2 : ("title" : String) ≠ "status" := by decide
  have d3 : ("description" : String) ≠ "status" := by decide
  rw [ValidateStruct_eq]
  by_cases h1 : t.Title = "" <;> by_cases h2 : t.Description = "" <;>
    by_cases h3 : t.Status = "" <;>
    by_cases h4 : t.Status = "pending" ∨ t.Status = "in-progress" ∨ t.Status = "completed" <;>
    simp [h1, h2, h3, h4, handleValidationError, StringMap.set, l1, l2, l3, v1, v2, d1, d2, d3]

/-- Validation of a decoded task: it passes exactly under the three field
rules; otherwise binding fails with validation errors, `CreateTask` answers
400 with the non-empty field-keyed mapping of those errors, and the store is
neither called nor changed. -/
theorem validation_of_decoded [UnicodeTables] (t : Task) :
    let valid : Prop := t.Title ≠ "" ∧ t.Description ≠ "" ∧
      (t.Status = "pending" ∨ t.Status = "in-progress" ∨ t.Status = "completed")
    (ValidateStruct t = [] ↔ valid) ∧
    (ShouldBindJSON (.document t) = .ok t ↔ valid) ∧
    (¬ valid →
      ValidateStruct t ≠ [] ∧
      ShouldBindJSON (.document t) = .error (.validation (ValidateStruct t)) ∧
      handleValidationError (.validation (ValidateStruct t)) ≠ [] ∧
      (∀ k v, (k, v) ∈ handleValidationError (.validation (ValidateStruct t)) →
        k = "title" ∨ k = "description" ∨ k = "status") ∧
      ∀ (h : TaskHandler σ) (c : Context σ), c.Request.Body = .document t →
        h.CreateTask c =
          { c with
            written := c.written ++
              [{ code := 400,
                 obj := .response
                   { Message := "",
                     Messages := some (handleValidationError (.validation (ValidateStruct t))) } }] } ∧
        (h.CreateTask c).calls = c.calls ∧ (h.CreateTask c).store = c.store) := by
  intro valid
  have hv : ValidateStruct t = [] ↔ valid := ValidateStruct_nil_iff t
  refine ⟨hv, ?_, ?_⟩
  · rw [ShouldBindJSON_document]
    by_cases h : ValidateStruct t = []
    · simp only [h, if_true, true_iff]
      exact hv.mp h
    · simp only [h, if_false]
      exact ⟨fun hh => (by cases hh), fun hh => absurd (hv.mpr hh) h⟩
  · intro hnv
    have hne : ValidateStruct t ≠ [] := fun h => hnv (hv.mp h)
    have hbind : ShouldBindJSON (.document t) = .error (.validation (ValidateStruct t)) := by
      rw [ShouldBindJSON_document]; simp [hne]
    refine ⟨hne, hbind, ?_, ?_, ?_⟩
    · rw [handleValidationError_task]
      intro hnil
      apply hnv
      simp only [valid]
      by_cases h1 : t.Title = "" <;> by_cases h2 : t.Description = "" <;>
        by_cases h3 : t.Status = "" <;>
        by_cases h4 : t.Status = "pending" ∨ t.Status = "in-progress" ∨ t.Status = "completed" <;>
        simp_all
    · rw [handleValidationError_task]
      intro k v hkv
      simp only [List.mem_append] at hkv
      rcases hkv with h | h | h <;> split_ifs at h <;> simp at h <;> simp [h.1]
    · intro h c hb
      have hc : h.CreateTask c =
          { c with
            written := c.written ++
              [{ code := 400,
                 obj := .response
                   { Message := "",
                     Messages := some (handleValidationError (.validation (ValidateStruct t))) } }] } := by
        simp [TaskHandler.CreateTask, hb, hbind, Context.JSON, http.StatusBadRequest]
      exact ⟨hc, by rw [hc], by rw [hc]⟩

theorem ShouldBindJSON_error (t : Task) (err : BindError)
    (hfail : ShouldBindJSON (.document t) = .error err) :
    err = .validation (ValidateStruct t) := by
  rw [ShouldBindJSON_document] at hfail
  split_ifs at hfail
  injection hfail with h
  exact h.symm

/-- The mapping of a decoded task that fails validation, key by key, with
the two examples of the specification. -/
theorem mapping_of_decoded [UnicodeTables] (t : Task) (err : BindError)
    (hfail : ShouldBindJSON (.document t) = .error err) :
    let required : String := "this is a required field"
    let oneof : String := "it must be one of the following [pending, in-progress, completed]"
    (∀ k : String, StringMap.lookup (handleValidationError err) k =
      if k = "title" then (if t.Title = "" then some required else none)
      else if k = "description" then (if t.Description = "" then some required else none)
      else if k = "status" then
        (if t.Status = "" then some required
         else if t.Status = "pending" ∨ t.Status = "in-progress" ∨ t.Status = "completed" then none
         else some oneof)
      else none) ∧
    ((handleValidationError err).map Prod.fst).Nodup ∧
    (let noTitle : Task :=
      { ID := ⟨0⟩, Title := "", Description := "d", Status := "pending",
        CreatedAt := ⟨0⟩, UpdatedAt := ⟨0⟩ }
     let e : BindError := .validation [{ Field := "Title", Tag := "required", Param := "" }]
     ShouldBindJSON (.document noTitle) = .error e ∧
       handleValidationError e = [("title", "this is a required field")]) ∧
    (let bogus : Task :=
      { ID := ⟨0⟩, Title := "t", Description := "d", Status := "bogus",
        CreatedAt := ⟨0⟩, UpdatedAt := ⟨0⟩ }
     let e : BindError :=
       .validation
         [{ Field := "Status", Tag := "oneof", Param := "pending in-progress completed" }]
     ShouldBindJSON (.document bogus) = .error e ∧
       handleValidationError e =
         [("status", "it must be one of the following [pending, in-progress, completed]")]) := by
  intro required oneof
  have he := ShouldBindJSON_error t err hfail
  subst he
  rw [handleValidationError_task]
  refine ⟨?_, ?_, ⟨rfl, rfl⟩, ⟨rfl, rfl⟩⟩
  · intro k
    by_cases h1 : t.Title = "" <;> by_cases h2 : t.Description = "" <;>
      by_cases h3 : t.Status = "" <;>
      by_cases h4 : t.Status = "pending" ∨ t.Status = "in-progress" ∨ t.Status = "completed" <;>
      by_cases k1 : k = "title" <;> by_cases k2 : k = "description" <;>
      by_cases k3 : k = "status" <;>
      simp_all [StringMap.lookup, @eq_comm _ "title" k, @eq_comm _ "description" k,
        @eq_comm _ "status" k]
  · by_cases h1 : t.Title = "" <;> by_cases h2 : t.Description = "" <;>
      by_cases h3 : t.Status = "" <;>
      by_cases h4 : t.Status = "pending" ∨ t.Status = "in-progress" ∨ t.Status = "completed" <;>
      simp_all

/-! ### The message mapping -/

theorem lookup_set (m : StringMap) (k v k' : String) :
    StringMap.lookup (StringMap.set m k v) k' =
      if k = k' then some v else StringMap.lookup m k' := by
  induction m with
  | nil => simp [StringMap.set, StringMap.lookup]
  | cons p m ih =>
    obtain ⟨a, b⟩ := p
    by_cases h : a = k
    · subst h
      by_cases h2 : a = k' <;> simp [StringMap.set, StringMap.lookup, h2]
    · by_cases h2 : a = k'
      · subst h2
        have : ¬ k = a := fun e => h e.symm
        simp [StringMap.set, StringMap.lookup, h, this]
      · simp [StringMap.set, StringMap.lookup, h, h2, ih]

theorem keys_set (m : StringMap) (k v : String) :
    (StringMap.set m k v).map Prod.fst =
      if k ∈ m.map Prod.fst then m.map Prod.fst else m.map Prod.fst ++ [k] := by
  induction m with
  | nil => simp [StringMap.set]
  | cons p m ih =>
    obtain ⟨a, b⟩ := p
    by_cases h : a = k
    · subst h
      simp [StringMap.set]
    · have hk : ¬ k = a := fun e => h e.symm
      simp only [StringMap.set, h, if_false, List.map_cons, ih, List.mem_cons, hk, false_or]
      split_ifs <;> simp

theorem nodup_keys_set (m : StringMap) (k v : String) (h : (m.map Prod.fst).Nodup) :
    ((StringMap.set m k v).map Prod.fst).Nodup := by
  rw [keys_set]
  split_ifs with hk
  · exact h
  · exact List.Nodup.append h (List.nodup_singleton k) (by simpa using hk)

theorem mem_keys_iff_lookup (m : StringMap) (k : String) :
    k ∈ m.map Prod.fst ↔ (StringMap.lookup m k).isSome = true := by
  induction m with
  | nil => simp [StringMap.lookup]
  | cons p m ih =>
    obtain ⟨a, b⟩ := p
    by_cases h : a = k
    · simp [StringMap.lookup, h]
    · have hk : ¬ k = a := fun e => h e.symm
      simp [StringMap.lookup, h, hk, ← ih]

theorem lookup_foldl_set [UnicodeTables] (errs : List FieldError) (acc : StringMap) (k : String) :
    StringMap.lookup
        (errs.foldl
          (fun errorsMap e =>
            StringMap.set errorsMap (strings.ToLower e.Field) (validationMessage e)) acc) k =
      match errs.reverse.find? (fun e => decide (strings.ToLower e.Field = k)) with
      | some e => some (validationMessage e)
      | none => StringMap.lookup acc k := by
  induction errs generalizing acc with
  | nil => simp
  | cons e es ih =>
    rw [List.foldl_cons, ih, List.reverse_cons, List.find?_append]
    cases hf : es.reverse.find? (fun e => decide (strings.ToLower e.Field = k)) with
    | some e' => simp
    | none =>
      by_cases hk : strings.ToLower e.Field = k
      · simp [lookup_set, hk]
      · simp [lookup_set, hk]

theorem nodup_keys_foldl_set [UnicodeTables] (errs : List FieldError) (acc : StringMap)
    (h : (acc.map Prod.fst).Nodup) :
    ((errs.foldl
      (fun errorsMap e =>
        StringMap.set errorsMap (strings.ToLower e.Field) (validationMessage e)) acc).map
      Prod.fst).Nodup := by
  induction errs generalizing acc with
  | nil => simpa using h
  | cons e es ih =>
    rw [List.foldl_cons]
    exact ih _ (nodup_keys_set _ _ _ h)

/-- C6. `handleValidationError` is a total mapping from the validation errors
to messages, whatever the field names are. The entry of a key is the message
of the last error whose lower-cased field name is that key, so the keys of the
result are exactly the lower-cased field names of the errors, each once;
lower-casing is Go's `strings.ToLower`, which moves the ASCII capitals and
takes every code point above ASCII from the Unicode tables. The errors of the
repository's test give the mapping the test expects. The message of an error
depends on its tag and parameter only: required, oneof (the values of the
parameter joined by ", " between brackets), max, min, email, phone and name
have the messages of the table, every other tag has "invalid value provided".
For an empty list of errors, and for an error that is no validation error,
the result is empty. -/
theorem handleValidationError_spec [UnicodeTables] (errs : List FieldError) :
    (∀ k : String, StringMap.lookup (handleValidationError (.validation errs)) k =
      (errs.reverse.find? (fun e => decide (strings.ToLower e.Field = k))).map
        validationMessage) ∧
    (∀ k : String, k ∈ (handleValidationError (.validation errs)).map Prod.fst ↔
      ∃ e ∈ errs, strings.ToLower e.Field = k) ∧
    ((handleValidationError (.validation errs)).map Prod.fst).Nodup ∧
    (∀ e e2 : FieldError, e.Tag = e2.Tag → e.Param = e2.Param →
      validationMessage e = validationMessage e2) ∧
    (∀ f p : String,
      validationMessage { Field := f, Tag := "required", Param := p } =
        "this is a required field" ∧
      validationMessage { Field := f, Tag := "oneof", Param := p } =
        "it must be one of the following [" ++ strings.Join (strings.Split p ' ') ", " ++ "]" ∧
      validationMessage { Field := f, Tag := "max", Param := p } =
        "it must be at most " ++ p ++ " characters long" ∧
      validationMessage { Field := f, Tag := "min", Param := p } =
        "it must be at least " ++ p ++ " characters long" ∧
      validationMessage { Field := f, Tag := "email", Param := p } =
        "it must be a valid email address" ∧
      validationMessage { Field := f, Tag := "phone", Param := p } =
        "it must be a valid phone number" ∧
      validationMessage { Field := f, Tag := "name", Param := p } =
        "it must adhere to valid naming conventions: no digits or special characters.") ∧
    (∀ f : String,
      validationMessage { Field := f, Tag := "oneof", Param := "male female other" } =
        "it must be one of the following [male, female, other]" ∧
      validationMessage { Field := f, Tag := "max", Param := "20" } =
        "it must be at most 20 characters long" ∧
      validationMessage { Field := f, Tag := "min", Param := "8" } =
        "it must be at least 8 characters long") ∧
    (∀ e : FieldError,
      e.Tag ∉ ["email", "max", "min", "name", "oneof", "phone", "required"] →
      validationMessage e = "invalid value provided") ∧
    handleValidationError (.validation []) = [] ∧
    handleValidationError .decoding = [] ∧
    (∀ s : String, strings.ToLower s = String.mk (s.data.map unicode.ToLower)) ∧
    (∀ c : Char, c.toNat < 0x80 → unicode.ToLower c = c.toLower) ∧
    (∀ c : Char, ¬ c.toNat < 0x80 → unicode.ToLower c = UnicodeTables.toLower c) ∧
    handleValidationError
        (.validation
          [{ Field := "Email", Tag := "email", Param := "" },
           { Field := "FName", Tag := "name", Param := "" },
           { Field := "LName", Tag := "max", Param := "20" },
           { Field := "Gender", Tag := "oneof", Param := "male female other" },
           { Field := "Phone", Tag := "phone", Param := "" },
           { Field := "Address", Tag := "required", Param := "" },
           { Field := "Username", Tag := "min", Param := "8" }]) =
      [("email", "it must be a valid email address"),
       ("fname",
        "it must adhere to valid naming conventions: no digits or special characters."),
       ("lname", "it must be at most 20 characters long"),
       ("gender", "it must be one of the following [male, female, other]"),
       ("phone", "it must be a valid phone number"),
       ("address", "this is a required field"),
       ("username", "it must be at least 8 characters long")] := by
  have hlookup : ∀ k : String, StringMap.lookup (handleValidationError (.validation errs)) k =
      (errs.reverse.find? (fun e => decide (strings.ToLower e.Field = k))).map
        validationMessage := by
    intro k
    simp only [handleValidationError]
    rw [lookup_foldl_set]
    cases errs.reverse.find? (fun e => decide (strings.ToLower e.Field = k)) <;>
      simp [StringMap.lookup]
  refine ⟨hlookup, ?_, ?_, ?_, ?_, ?_, ?_, rfl, rfl, fun _ => rfl, ?_, ?_, rfl⟩
  · intro k
    rw [mem_keys_iff_lookup, hlookup]
    simp [Option.isSome_map, List.find?_isSome]
  · simp only [handleValidationError]
    exact nodup_keys_foldl_set errs [] (by simp)
  · intro e e2 ht hp
    simp only [validationMessage, ht, hp]
  · intro f p
    refine ⟨rfl, rfl, rfl, rfl, rfl, rfl, rfl⟩
  · intro f
    exact ⟨rfl, rfl, rfl⟩
  · intro e he
    simp only [List.mem_cons, List.mem_singleton, not_or, List.not_mem_nil, or_false] at he
    obtain ⟨h1, h2, h3, h4, h5, h6, h7⟩ := he
    simp [validationMessage, h1, h2, h3, h4, h5, h6, h7]
  · intro c hc
    simp only [unicode.ToLower, if_pos hc]
  · intro c hc
    simp only [unicode.ToLower, if_neg hc]

/-! ### The by-identifier handlers -/

/-- C7. When the path identifier does not parse as a UUID, `GetTaskByID`,
`UpdateTaskByID` and `DeleteTaskByID` each answer 400 with the envelope whose
message is "Bad Request", and the store is neither called nor changed. -/
theorem malformed_id_spec [UnicodeTables] (h : TaskHandler σ) (FromString : UUIDParser) (c : Context σ)
    (hbad : FromString (c.Param "taskId") = none) :
    let badRequest : Context σ :=
      { c with
        written := c.written ++
          [{ code := 400, obj := .response { Message := "Bad Request", Messages := none } }] }
    h.GetTaskByID FromString c = badRequest ∧
    h.UpdateTaskByID FromString c = badRequest ∧
    h.DeleteTaskByID FromString c = badRequest ∧
    badRequest.calls = c.calls ∧ badRequest.store = c.store := by
  have hs : http.StatusText http.StatusBadRequest = "Bad Request" := by decide
  refine ⟨?_, ?_, ?_, rfl, rfl⟩
  · simp only [TaskHandler.GetTaskByID, hbad, hs]
    rfl
  · simp only [TaskHandler.UpdateTaskByID, hbad, hs]
    rfl
  · simp only [TaskHandler.DeleteTaskByID, hbad, hs]
    rfl

/-- C8. `UpdateTaskByID` checks existence before it looks at the body: when
the identifier parses and the store's `GetTaskByID` fails with an error whose
text is "record not found" up to letter case, the answer is 404 with the
message "task not found" whatever the body is, and the only store call is
that `GetTaskByID`: the store's `UpdateTask` is not called. -/
theorem update_not_found_spec [UnicodeTables] (h : TaskHandler σ) (FromString : UUIDParser) (c : Context σ)
    (taskId : UUID) (err : GoError)
    (hid : FromString (c.Param "taskId") = some taskId)
    (hget : (h.TaskService.GetTaskByID taskId c.store).1 = .error err)
    (hnf : strings.EqualFold err.text "record not found" = true) :
    h.UpdateTaskByID FromString c =
      { c with
        written := c.written ++
          [{ code := 404, obj := .response { Message := "task not found", Messages := none } }],
        store := (h.TaskService.GetTaskByID taskId c.store).2,
        calls := c.calls ++ [.GetTaskByID taskId] } ∧
    (h.UpdateTaskByID FromString c).calls = c.calls ++ [.GetTaskByID taskId] ∧
    (∀ r ∈ (h.UpdateTaskByID FromString c).written, r ∈ c.written ∨ r.code = 404) := by
  have heq : h.UpdateTaskByID FromString c =
      { c with
        written := c.written ++
          [{ code := 404, obj := .response { Message := "task not found", Messages := none } }],
        store := (h.TaskService.GetTaskByID taskId c.store).2,
        calls := c.calls ++ [.GetTaskByID taskId] } := by
    simp only [TaskHandler.UpdateTaskByID, hid, Context.invoke, hget, hnf]
    rfl
  refine ⟨heq, by rw [heq], ?_⟩
  rw [heq]
  intro r hr
  simp only [List.mem_append, List.mem_singleton] at hr
  rcases hr with hr | hr
  · exact Or.inl hr
  · exact Or.inr (by rw [hr])

/-- C9. When the identifier parses, `GetTaskByID` calls the store's
`GetTaskByID` once, with the parsed identifier, and classifies the outcome:
success gives 200 with the returned task; an error whose text is "record not
found" up to letter case gives 404 with the message "task not found"; every
other error gives 500 with the message "Internal Server Error". -/
theorem get_by_id_spec (h : TaskHandler σ) (FromString : UUIDParser) (c : Context σ)
    (taskId : UUID) (hid : FromString (c.Param "taskId") = some taskId) :
    let reply (r : Reply) : Context σ :=
      { c with
        written := c.written ++ [r],
        store := (h.TaskService.GetTaskByID taskId c.store).2,
        calls := c.calls ++ [.GetTaskByID taskId] }
    (∀ task, (h.TaskService.GetTaskByID taskId c.store).1 = .ok task →
      h.GetTaskByID FromString c = reply { code := 200, obj := .task task }) ∧
    (∀ err, (h.TaskService.GetTaskByID taskId c.store).1 = .error err →
      strings.EqualFold err.text "record not found" = true →
      h.GetTaskByID FromString c =
        reply { code := 404,
                obj := .response { Message := "task not found", Messages := none } }) ∧
    (∀ err, (h.TaskService.GetTaskByID taskId c.store).1 = .error err →
      strings.EqualFold err.text "record not found" = false →
      h.GetTaskByID FromString c =
        reply { code := 500,
                obj := .response { Message := "Internal Server Error", Messages := none } }) ∧
    (h.GetTaskByID FromString c).calls = c.calls ++ [.GetTaskByID taskId] := by
  intro reply
  have hs : http.StatusText http.StatusInternalServerError = "Internal Server Error" := by
    decide
  have h200 : ∀ task, (h.TaskService.GetTaskByID taskId c.store).1 = .ok task →
      h.GetTaskByID FromString c = reply { code := 200, obj := .task task } := by
    intro task hget
    simp only [TaskHandler.GetTaskByID, hid, Context.invoke, hget]
    rfl
  have h404 : ∀ err, (h.TaskService.GetTaskByID taskId c.store).1 = .error err →
      strings.EqualFold err.text "record not found" = true →
      h.GetTaskByID FromString c =
        reply { code := 404,
                obj := .response { Message := "task not found", Messages := none } } := by
    intro err hget hnf
    simp only [TaskHandler.GetTaskByID, hid, Context.invoke, hget, hnf]
    rfl
  have h500 : ∀ err, (h.TaskService.GetTaskByID taskId c.store).1 = .error err →
      strings.EqualFold err.text "record not found" = false →
      h.GetTaskByID FromString c =
        reply { code := 500,
                obj := .response { Message := "Internal Server Error", Messages := none } } := by
    intro err hget hnf
    simp only [TaskHandler.GetTaskByID, hid, Context.invoke, hget, hnf, hs]
    rfl
  refine ⟨h200, h404, h500, ?_⟩
  cases hget : (h.TaskService.GetTaskByID taskId c.store).1 with
  | ok task => rw [h200 task hget]
  | error err =>
    cases hnf : strings.EqualFold err.text "record not found" with
    | true => rw [h404 err hget hnf]
    | false => rw [h500 err hget hnf]

/-- C10. When the identifier parses, `DeleteTaskByID` makes one store call,
`DeleteTask` with the parsed identifier, and answers 200 with the message
"Task deleted successfully" when that reports no error, whatever the store
held, and 500 with the message "Internal Server Error" when it reports an
error; it never answers 404 and never calls `GetTaskByID`. -/
theorem delete_by_id_spec (h : TaskHandler σ) (FromString : UUIDParser) (c : Context σ)
    (taskId : UUID) (hid : FromString (c.Param "taskId") = some taskId) :
    let reply (r : Reply) : Context σ :=
      { c with
        written := c.written ++ [r],
        store := (h.TaskService.DeleteTask taskId c.store).2,
        calls := c.calls ++ [.DeleteTask taskId] }
    ((h.TaskService.DeleteTask taskId c.store).1 = none →
      h.DeleteTaskByID FromString c =
        reply { code := 200,
                obj := .response { Message := "Task deleted successfully", Messages := none } }) ∧
    (∀ err, (h.TaskService.DeleteTask taskId c.store).1 = some err →
      h.DeleteTaskByID FromString c =
        reply { code := 500,
                obj := .response { Message := "Internal Server Error", Messages := none } }) ∧
    (h.DeleteTaskByID FromString c).calls = c.calls ++ [.DeleteTask taskId] ∧
    (∀ id, Call.GetTaskByID id ∉ (h.DeleteTaskByID FromString c).calls ∨
      Call.GetTaskByID id ∈ c.calls) ∧
    (∃ r, (h.DeleteTaskByID FromString c).written = c.written ++ [r] ∧
      (r.code = 200 ∨ r.code = 500)) := by
  intro reply
  have hs : http.StatusText http.StatusInternalServerError = "Internal Server Error" := by
    decide
  have hok : (h.TaskService.DeleteTask taskId c.store).1 = none →
      h.DeleteTaskByID FromString c =
        reply { code := 200,
                obj := .response { Message := "Task deleted successfully", Messages := none } } := by
    intro hdel
    simp only [TaskHandler.DeleteTaskByID, hid, Context.invoke, hdel]
    rfl
  have hfail : ∀ err, (h.TaskService.DeleteTask taskId c.store).1 = some err →
      h.DeleteTaskByID FromString c =
        reply { code := 500,
                obj := .response { Message := "Internal Server Error", Messages := none } } := by
    intro err hdel
    simp only [TaskHandler.DeleteTaskByID, hid, Context.invoke, hdel, hs]
    rfl
  have hcalls : (h.DeleteTaskByID FromString c).calls = c.calls ++ [.DeleteTask taskId] := by
    cases hdel : (h.TaskService.DeleteTask taskId c.store).1 with
    | none => rw [hok hdel]
    | some err => rw [hfail err hdel]
  refine ⟨hok, hfail, hcalls, ?_, ?_⟩
  · intro id
    rw [hcalls]
    by_cases hin : Call.GetTaskByID id ∈ c.calls
    · exact Or.inr hin
    · exact Or.inl (by simp [hin])
  · cases hdel : (h.TaskService.DeleteTask taskId c.store).1 with
    | none => exact ⟨_, by rw [hok hdel], Or.inl rfl⟩
    | some err => exact ⟨_, by rw [hfail err hdel], Or.inr rfl⟩

/-! ### Concrete instances -/

/-- C2, the claim as stated fails: GET /tasks/7 without an `Authorization`
header, on a store that holds the task, is answered 401 by the gate and the
store is not called, although the handler alone would answer 200 with the
task. -/
theorem get_by_id_route_is_gated :
    ((SetupRouter gin.Default (stubService (.ok sampleTask) (.ok [sampleTask]) none)
        stubParser).ServeHTTP
      { Method := "GET", Path := "/tasks/7", Header := [], Body := .undecodable } ⟨9⟩ ()).map
        (fun c => (c.written, c.calls)) =
      some ([{ code := 401, obj := .H [("message", "Authorization header missing")] }], []) ∧
    ((NewTaskHandler (stubService (.ok sampleTask) (.ok [sampleTask]) none)).GetTaskByID
        stubParser (testContext [] [("taskId", "7")] .undecodable)).written =
      [{ code := 200, obj := .task sampleTask }] := by
  exact ⟨by decide, by decide⟩

/-- C2, an instance of the amended statement: with a well-formed token the
request DELETE /tasks/7 reaches `DeleteTaskByID`. -/
theorem SetupRouter_gated_routes_witness :
    ("7" : String) ≠ "" ∧ '/' ∉ ("7" : String).data ∧
    (SetupRouter gin.Default (stubService (.ok sampleTask) (.ok [sampleTask]) none)
        stubParser).ServeHTTP
      { Method := "DELETE", Path := "/tasks/" ++ "7",
        Header := [("Authorization", "Bearer a.b.c")], Body := .undecodable } ⟨9⟩ () =
      some ((NewTaskHandler (stubService (.ok sampleTask) (.ok [sampleTask]) none)).DeleteTaskByID
        stubParser
        { Request := { Method := "DELETE", Path := "/tasks/" ++ "7",
                       Header := [("Authorization", "Bearer a.b.c")], Body := .undecodable },
          Params := [("taskId", "7")], NewV7 := ⟨9⟩, written := [], aborted := false,
          store := (), calls := [] }) :=
  ⟨by decide, by decide,
    (SetupRouter_gated_routes (stubService (.ok sampleTask) (.ok [sampleTask]) none) stubParser
      [("Authorization", "Bearer a.b.c")] .undecodable ⟨9⟩ () "7" (by decide)
      (by decide)).2.2.2.2.2⟩

/-- C3, an instance: a well-formed token lets the rest of the chain run. -/
theorem AuthMiddleware_spec_witness :
    (testContext [("Authorization", "Bearer a.b.c")] [] .undecodable).aborted = false ∧
    runChain [AuthMiddleware, NewHealthzHandler.GetHealthz]
        (testContext [("Authorization", "Bearer a.b.c")] [] .undecodable) =
      runChain [NewHealthzHandler.GetHealthz]
        (testContext [("Authorization", "Bearer a.b.c")] [] .undecodable) :=
  ⟨rfl,
    ((AuthMiddleware_spec (testContext [("Authorization", "Bearer a.b.c")] [] .undecodable)
      [NewHealthzHandler.GetHealthz] rfl).2.2.1 (by decide) (by decide)).2⟩

/-- C7, an instance: the identifier `abcd1234` of the handler tests. -/
theorem malformed_id_spec_witness :
    stubParser ((testContext [] [("taskId", "abcd1234")] .undecodable).Param "taskId") = none ∧
    (NewTaskHandler (stubService (.ok sampleTask) (.ok [sampleTask]) none)).DeleteTaskByID
        stubParser (testContext [] [("taskId", "abcd1234")] .undecodable) =
      { testContext [] [("taskId", "abcd1234")] .undecodable with
        written := [{ code := 400,
                      obj := .response { Message := "Bad Request", Messages := none } }] } :=
  ⟨by decide,
    (malformed_id_spec (NewTaskHandler (stubService (.ok sampleTask) (.ok [sampleTask]) none))
      stubParser (testContext [] [("taskId", "abcd1234")] .undecodable) (by decide)).2.2.1⟩

/-- C8, an instance: the store reports "record not found" and the body is a
valid document. -/
theorem update_not_found_spec_witness :
    stubParser ((testContext [] [("taskId", "7")] (.document sampleTask)).Param "taskId") =
      some ⟨7⟩ ∧
    strings.EqualFold "record not found" "record not found" = true ∧
    ((NewTaskHandler (stubService (.error ⟨"record not found"⟩) (.ok []) none)).UpdateTaskByID
        stubParser (testContext [] [("taskId", "7")] (.document sampleTask))).calls =
      [.GetTaskByID ⟨7⟩] :=
  ⟨by decide, by decide,
    (update_not_found_spec
      (NewTaskHandler (stubService (.error ⟨"record not found"⟩) (.ok []) none)) stubParser
      (testContext [] [("taskId", "7")] (.document sampleTask)) ⟨7⟩ ⟨"record not found"⟩
      (by decide) rfl (by decide)).2.1⟩

/-- C9, an instance: the store holds the task. -/
theorem get_by_id_spec_witness :
    stubParser ((testContext [] [("taskId", "7")] .undecodable).Param "taskId") = some ⟨7⟩ ∧
    ((NewTaskHandler (stubService (.ok sampleTask) (.ok [sampleTask]) none)).GetTaskByID
        stubParser (testContext [] [("taskId", "7")] .undecodable)).calls =
      [.GetTaskByID ⟨7⟩] :=
  ⟨by decide,
    (get_by_id_spec (NewTaskHandler (stubService (.ok sampleTask) (.ok [sampleTask]) none))
      stubParser (testContext [] [("taskId", "7")] .undecodable) ⟨7⟩ (by decide)).2.2.2⟩

/-- C10, an instance: the store reports no error. -/
theorem delete_by_id_spec_witness :
    stubParser ((testContext [] [("taskId", "7")] .undecodable).Param "taskId") = some ⟨7⟩ ∧
    ((NewTaskHandler (stubService (.ok sampleTask) (.ok [sampleTask]) none)).DeleteTaskByID
        stubParser (testContext [] [("taskId", "7")] .undecodable)).calls =
      [.DeleteTask ⟨7⟩] :=
  ⟨by decide,
    (delete_by_id_spec (NewTaskHandler (stubService (.ok sampleTask) (.ok [sampleTask]) none))
      stubParser (testContext [] [("taskId", "7")] .undecodable) ⟨7⟩ (by decide)).2.2.1⟩

/-! ### Create and update -/

theorem StatusText_500 :
    http.StatusText http.StatusInternalServerError = "Internal Server Error" := by decide

theorem gorm_Create_fields (task : Task) (db : DB) :
    (gorm.Create task db).1.1.ID = task.ID ∧
    (gorm.Create task db).1.1.Title = task.Title ∧
    (gorm.Create task db).1.1.Description = task.Description ∧
    (gorm.Create task db).1.1.Status = task.Status := by
  unfold gorm.Create
  cases db.fault with
  | some err => exact ⟨rfl, rfl, rfl, rfl⟩
  | none =>
    simp only
    split_ifs <;> exact ⟨rfl, rfl, rfl, rfl⟩

/-- A body that does not bind: 400 with the mapping, nothing else. -/
theorem CreateTask_of_bind_error [UnicodeTables] (h : TaskHandler σ) (c : Context σ) (err : BindError)
    (hb : ShouldBindJSON c.Request.Body = .error err) :
    h.CreateTask c =
      { c with
        written := c.written ++
          [{ code := 400,
             obj := .response { Message := "", Messages := some (handleValidationError err) } }] } := by
  simp only [TaskHandler.CreateTask, hb]
  rfl

/-- A body that binds: one call of the store's create, then 500 or 201. -/
theorem CreateTask_of_bind_ok [UnicodeTables] (h : TaskHandler σ) (c : Context σ) (input : Task)
    (hb : ShouldBindJSON c.Request.Body = .ok input) :
    h.CreateTask c =
      { c with
        written := c.written ++
          [match (h.TaskService.CreateTask { input with ID := c.NewV7 } c.store).1.2 with
           | some _ =>
             { code := 500,
               obj := .response { Message := "Internal Server Error", Messages := none } }
           | none =>
             { code := 201,
               obj := .task (h.TaskService.CreateTask { input with ID := c.NewV7 } c.store).1.1 }],
        store := (h.TaskService.CreateTask { input with ID := c.NewV7 } c.store).2,
        calls := c.calls ++ [.CreateTask { input with ID := c.NewV7 }] } := by
  simp only [TaskHandler.CreateTask, hb, Context.invoke]
  rcases hr : (h.TaskService.CreateTask { input with ID := c.NewV7 } c.store).1 with ⟨t2, e2⟩
  cases e2 with
  | none => rfl
  | some err =>
    simp only [StatusText_500]
    rfl

/-- C11. `CreateTask`: when binding the body fails, the answer is 400 with the
envelope of the field errors and the store is not called; otherwise the
identifier of the bound task is replaced by the freshly generated one, the
store's create is called once, with that task, and the answer is 500 with the
message "Internal Server Error" when it fails, else 201 with the task as the
store left it. With the service of the repository that task has the title,
description and status of the input and the generated identifier. -/
theorem create_spec [UnicodeTables] (h : TaskHandler σ) (c : Context σ) :
    (∀ err, ShouldBindJSON c.Request.Body = .error err →
      h.CreateTask c =
        { c with
          written := c.written ++
            [{ code := 400,
               obj := .response { Message := "", Messages := some (handleValidationError err) } }] }) ∧
    (∀ input, ShouldBindJSON c.Request.Body = .ok input →
      let task : Task := { input with ID := c.NewV7 }
      let after : Context σ :=
        { c with
          store := (h.TaskService.CreateTask task c.store).2,
          calls := c.calls ++ [.CreateTask task] }
      (h.CreateTask c).calls = c.calls ++ [.CreateTask task] ∧
      (∀ err, (h.TaskService.CreateTask task c.store).1.2 = some err →
        h.CreateTask c =
          { after with
            written := c.written ++
              [{ code := 500,
                 obj := .response { Message := "Internal Server Error", Messages := none } }] }) ∧
      ((h.TaskService.CreateTask task c.store).1.2 = none →
        h.CreateTask c =
          { after with
            written := c.written ++
              [{ code := 201, obj := .task (h.TaskService.CreateTask task c.store).1.1 }] })) ∧
    (∀ (input : Task) (db : DB),
      let stored := (NewTaskService.CreateTask { input with ID := c.NewV7 } db).1.1
      stored.ID = c.NewV7 ∧ stored.Title = input.Title ∧
        stored.Description = input.Description ∧ stored.Status = input.Status) := by
  refine ⟨CreateTask_of_bind_error h c, ?_, ?_⟩
  · intro input hb task after
    have heq := CreateTask_of_bind_ok h c input hb
    refine ⟨by rw [heq], ?_, ?_⟩
    · intro err he
      rw [heq]
      simp only [task] at he
      simp only [he]
    · intro he
      rw [heq]
      simp only [task] at he
      simp only [he]
  · intro input db
    exact gorm_Create_fields _ db

/-- An update of an identifier the store finds: the body is bound next, and
only a body that binds reaches the store's update. -/
theorem UpdateTaskByID_of_found [UnicodeTables] (h : TaskHandler σ) (FromString : UUIDParser) (c : Context σ)
    (taskId : UUID) (found : Task)
    (hid : FromString (c.Param "taskId") = some taskId)
    (hget : (h.TaskService.GetTaskByID taskId c.store).1 = .ok found) :
    h.UpdateTaskByID FromString c =
      match ShouldBindJSON c.Request.Body with
      | .error err =>
        { c with
          written := c.written ++
            [{ code := 400,
               obj := .response { Message := "", Messages := some (handleValidationError err) } }],
          store := (h.TaskService.GetTaskByID taskId c.store).2,
          calls := c.calls ++ [.GetTaskByID taskId] }
      | .ok task =>
        { c with
          written := c.written ++
            [match (h.TaskService.UpdateTask taskId task
                (h.TaskService.GetTaskByID taskId c.store).2).1 with
             | some _ =>
               { code := 500,
                 obj := .response { Message := "Internal Server Error", Messages := none } }
             | none =>
               { code := 200,
                 obj := .response { Message := "Task updated successfully", Messages := none } }],
          store := (h.TaskService.UpdateTask taskId task
            (h.TaskService.GetTaskByID taskId c.store).2).2,
          calls := c.calls ++ [.GetTaskByID taskId, .UpdateTask taskId task] } := by
  simp only [TaskHandler.UpdateTaskByID, hid, Context.invoke, hget]
  cases hb : ShouldBindJSON c.Request.Body with
  | error err => rfl
  | ok task =>
    simp only
    cases hu : (h.TaskService.UpdateTask taskId task
        (h.TaskService.GetTaskByID taskId c.store).2).1 with
    | none => simp [Context.JSON, http.StatusOK]
    | some err =>
      simp only [StatusText_500]
      simp [Context.JSON, http.StatusInternalServerError]

/-- C15. `UpdateTaskByID` on an identifier that parses and that the store's
`GetTaskByID` finds: when binding the body fails the answer is 400 with the
envelope of the field errors and the store's update is not called; otherwise
the update is called once, with the parsed path identifier (the one passed to
`GetTaskByID`) and the bound body, and the answer is 500 with the message
"Internal Server Error" when it fails, else 200 with the envelope whose
message is "Task updated successfully", not the updated document. -/
theorem update_found_spec [UnicodeTables] (h : TaskHandler σ) (FromString : UUIDParser) (c : Context σ)
    (taskId : UUID) (found : Task)
    (hid : FromString (c.Param "taskId") = some taskId)
    (hget : (h.TaskService.GetTaskByID taskId c.store).1 = .ok found) :
    let looked : σ := (h.TaskService.GetTaskByID taskId c.store).2
    (∀ err, ShouldBindJSON c.Request.Body = .error err →
      h.UpdateTaskByID FromString c =
        { c with
          written := c.written ++
            [{ code := 400,
               obj := .response { Message := "", Messages := some (handleValidationError err) } }],
          store := looked,
          calls := c.calls ++ [.GetTaskByID taskId] }) ∧
    (∀ task, ShouldBindJSON c.Request.Body = .ok task →
      (h.UpdateTaskByID FromString c).calls =
        c.calls ++ [.GetTaskByID taskId, .UpdateTask taskId task] ∧
      (h.UpdateTaskByID FromString c).store = (h.TaskService.UpdateTask taskId task looked).2 ∧
      (∀ err, (h.TaskService.UpdateTask taskId task looked).1 = some err →
        (h.UpdateTaskByID FromString c).written =
          c.written ++
            [{ code := 500,
               obj := .response { Message := "Internal Server Error", Messages := none } }]) ∧
      ((h.TaskService.UpdateTask taskId task looked).1 = none →
        (h.UpdateTaskByID FromString c).written =
          c.written ++
            [{ code := 200,
               obj := .response
                 { Message := "Task updated successfully", Messages := none } }])) := by
  intro looked
  have heq := UpdateTaskByID_of_found h FromString c taskId found hid hget
  refine ⟨?_, ?_⟩
  · intro err hb
    rw [heq, hb]
  · intro task hb
    rw [heq, hb]
    refine ⟨rfl, rfl, ?_, ?_⟩
    · intro err hu
      simp only [looked] at hu
      simp only [hu]
    · intro hu
      simp only [looked] at hu
      simp only [hu]

theorem ShouldBindJSON_valid (t : Task) (hv : ValidateStruct t = []) :
    ShouldBindJSON (.document t) = .ok t := by
  rw [ShouldBindJSON_document, if_pos hv]

/-- C12 (as the code has it). Of a valid request body, the title, the
description, the status and both timestamps reach the store as they are. On
create the identifier of the body is replaced by the freshly generated one:
two valid bodies that agree on those five fields and differ in `id` cause the
same call of the store's create and leave the same store, so a client cannot
choose the identifier of a new task. On update the store's update is called
with the path identifier and the bound body. -/
theorem store_arguments_spec [UnicodeTables] (h : TaskHandler σ) (FromString : UUIDParser) (c : Context σ)
    (b1 b2 : Task) (hv1 : ValidateStruct b1 = []) (hv2 : ValidateStruct b2 = [])
    (hT : b1.Title = b2.Title) (hD : b1.Description = b2.Description)
    (hS : b1.Status = b2.Status) (hC : b1.CreatedAt = b2.CreatedAt)
    (hU : b1.UpdatedAt = b2.UpdatedAt) :
    let withBody (b : Task) : Context σ :=
      { c with Request := { c.Request with Body := .document b } }
    (h.CreateTask (withBody b1)).calls = c.calls ++ [.CreateTask { b1 with ID := c.NewV7 }] ∧
    (h.CreateTask (withBody b1)).calls = (h.CreateTask (withBody b2)).calls ∧
    (h.CreateTask (withBody b1)).store = (h.CreateTask (withBody b2)).store ∧
    (h.CreateTask (withBody b1)).written = (h.CreateTask (withBody b2)).written ∧
    (∀ taskId found, FromString (c.Param "taskId") = some taskId →
      (h.TaskService.GetTaskByID taskId c.store).1 = .ok found →
      (h.UpdateTaskByID FromString (withBody b1)).calls =
        c.calls ++ [.GetTaskByID taskId, .UpdateTask taskId b1]) := by
  intro withBody
  have hsame : ({ b1 with ID := c.NewV7 } : Task) = { b2 with ID := c.NewV7 } := by
    cases b1; cases b2
    simp only at hT hD hS hC hU
    simp [hT, hD, hS, hC, hU]
  have h1 := CreateTask_of_bind_ok h (withBody b1) b1 (ShouldBindJSON_valid b1 hv1)
  have h2 := CreateTask_of_bind_ok h (withBody b2) b2 (ShouldBindJSON_valid b2 hv2)
  refine ⟨by rw [h1], ?_, ?_, ?_, ?_⟩
  · rw [h1, h2]
    simp only [withBody, hsame]
  · rw [h1, h2]
    simp only [withBody, hsame]
  · rw [h1, h2]
    simp only [withBody, hsame]
  · intro taskId found hid hget
    have hu := UpdateTaskByID_of_found h FromString (withBody b1) taskId found hid hget
    rw [hu]
    have hb : ShouldBindJSON (withBody b1).Request.Body = .ok b1 := ShouldBindJSON_valid b1 hv1
    rw [hb]

/-! ### The input document -/

theorem decodeString_some (v : Option JSONValue) (s : String) (h : decodeString v = some s) :
    s = Document.text v := by
  rcases v with _ | v
  · simp only [decodeString, Option.some.injEq] at h
    rw [← h]; rfl
  · cases v with
    | null =>
      simp only [decodeString, Option.some.injEq] at h
      rw [← h]; rfl
    | string s2 =>
      simp only [decodeString, Option.some.injEq] at h
      rw [← h]; rfl
    | number n => cases h
    | bool b => cases h
    | array => cases h
    | object => cases h

/-- The string fields of a decoded document are the texts of its members. -/
theorem decode_document_fields (FromString : UUIDParser) (parseTime : String → Option Time)
    (d : Document) (t : Task) (h : d.decode FromString parseTime = .document t) :
    t.Title = Document.text d.title ∧ t.Description = Document.text d.description ∧
      t.Status = Document.text d.status := by
  unfold Document.decode at h
  split at h
  · rename_i id title description status createdAt updatedAt _ h2 h3 h4 _ _
    injection h with h
    subst h
    exact ⟨decodeString_some _ _ h2, decodeString_some _ _ h3, decodeString_some _ _ h4⟩
  · cases h

/-- C4 (as the code has it). An input document whose members decode into the
fields of a Task passes Task validation exactly when its title is non-empty,
its description is non-empty and its status is one of "pending",
"in-progress", "completed"; in every other case such a document yields a
non-empty field-keyed error mapping, `CreateTask` answers 400 with it, and no
Task is handed to the store. A document that does not decode into a Task is
answered 400 as well, whatever its title, description and status, and no
Task is handed to the store. -/
theorem Task_validation_spec [UnicodeTables] (FromString : UUIDParser)
    (parseTime : String → Option Time) (d : Document) :
    let valid : Prop :=
      Document.text d.title ≠ "" ∧ Document.text d.description ≠ "" ∧
      (Document.text d.status = "pending" ∨ Document.text d.status = "in-progress" ∨
        Document.text d.status = "completed")
    (∀ t, d.decode FromString parseTime = .document t →
      (ValidateStruct t = [] ↔ valid) ∧
      (ShouldBindJSON (d.decode FromString parseTime) = .ok t ↔ valid) ∧
      (¬ valid →
        ValidateStruct t ≠ [] ∧
        ShouldBindJSON (d.decode FromString parseTime) = .error (.validation (ValidateStruct t)) ∧
        handleValidationError (.validation (ValidateStruct t)) ≠ [] ∧
        (∀ k v, (k, v) ∈ handleValidationError (.validation (ValidateStruct t)) →
          k = "title" ∨ k = "description" ∨ k = "status") ∧
        ∀ (h : TaskHandler σ) (c : Context σ),
          c.Request.Body = d.decode FromString parseTime →
          h.CreateTask c =
            { c with
              written := c.written ++
                [{ code := 400,
                   obj := .response
                     { Message := "",
                       Messages :=
                         some (handleValidationError (.validation (ValidateStruct t))) } }] })) ∧
    (d.decode FromString parseTime = .undecodable →
      ShouldBindJSON (d.decode FromString parseTime) = .error .decoding ∧
      ∀ (h : TaskHandler σ) (c : Context σ),
        c.Request.Body = d.decode FromString parseTime →
        ∃ r : Reply, r.code = 400 ∧ h.CreateTask c = { c with written := c.written ++ [r] }) := by
  intro valid
  refine ⟨?_, ?_⟩
  · intro t hdec
    obtain ⟨hT, hD, hS⟩ := decode_document_fields FromString parseTime d t hdec
    have hold := @validation_of_decoded σ _ t
    simp only [hT, hD, hS] at hold
    rw [hdec]
    obtain ⟨h1, h2, h3⟩ := hold
    refine ⟨h1, h2, ?_⟩
    intro hnv
    obtain ⟨g1, g2, g3, g4, g5⟩ := h3 hnv
    exact ⟨g1, g2, g3, g4, fun h c hb => (g5 h c hb).1⟩
  · intro hdec
    rw [hdec]
    refine ⟨rfl, ?_⟩
    intro h c hb
    exact ⟨{ code := 400,
             obj := .response
               { Message := "", Messages := some (handleValidationError .decoding) } },
      rfl, CreateTask_of_bind_error h c .decoding (by rw [hb]; rfl)⟩

/-- C5 (as the code has it). For an input document that decodes into a Task
and fails Task validation, the field-error mapping has one entry for each
failing field and none for the others: a missing or empty title, description
or status maps to "this is a required field", a non-empty status outside the
enumeration maps to "it must be one of the following [pending, in-progress,
completed]". The document with description "d" and status "pending" and no
title yields exactly the entry of `title`; the document with title "t",
description "d" and status "bogus" yields exactly the entry of `status`,
listing pending, in-progress, completed. -/
theorem validation_mapping_spec [UnicodeTables] (FromString : UUIDParser)
    (parseTime : String → Option Time) (d : Document) (t : Task) (err : BindError)
    (hdec : d.decode FromString parseTime = .document t)
    (hfail : ShouldBindJSON (d.decode FromString parseTime) = .error err) :
    let required : String := "this is a required field"
    let oneof : String := "it must be one of the following [pending, in-progress, completed]"
    (∀ k : String, StringMap.lookup (handleValidationError err) k =
      if k = "title" then (if Document.text d.title = "" then some required else none)
      else if k = "description" then
        (if Document.text d.description = "" then some required else none)
      else if k = "status" then
        (if Document.text d.status = "" then some required
         else if Document.text d.status = "pending" ∨ Document.text d.status = "in-progress" ∨
             Document.text d.status = "completed" then none
         else some oneof)
      else none) ∧
    ((handleValidationError err).map Prod.fst).Nodup ∧
    (let noTitle : Document :=
      { description := some (.string "d"), status := some (.string "pending") }
     let e : BindError := .validation [{ Field := "Title", Tag := "required", Param := "" }]
     ShouldBindJSON (noTitle.decode FromString parseTime) = .error e ∧
       handleValidationError e = [("title", "this is a required field")]) ∧
    (let bogus : Document :=
      { title := some (.string "t"), description := some (.string "d"),
        status := some (.string "bogus") }
     let e : BindError :=
       .validation
         [{ Field := "Status", Tag := "oneof", Param := "pending in-progress completed" }]
     ShouldBindJSON (bogus.decode FromString parseTime) = .error e ∧
       handleValidationError e =
         [("status", "it must be one of the following [pending, in-progress, completed]")]) := by
  intro required oneof
  obtain ⟨hT, hD, hS⟩ := decode_document_fields FromString parseTime d t hdec
  rw [hdec] at hfail
  have hold := mapping_of_decoded t err hfail
  simp only [hT, hD, hS] at hold
  exact ⟨hold.1, hold.2.1, ⟨rfl, rfl⟩, ⟨rfl, rfl⟩⟩

/-! ### The store -/

theorem find_append_fresh (rows : List Task) (t : Task) (hfresh : t.ID ∉ rows.map Task.ID) :
    (rows ++ [t]).find? (fun row => decide (row.ID = t.ID)) = some t := by
  induction rows with
  | nil => simp
  | cons r rows ih =>
    simp only [List.map_cons, List.mem_cons, not_or] at hfresh
    have hr : ¬ r.ID = t.ID := fun e => hfresh.1 e.symm
    simp only [List.cons_append, List.find?_cons, hr, decide_False]
    exact ih hfresh.2

theorem gorm_First_of_find (id : UUID) (db : DB) (row : Task) (hup : db.fault = none)
    (hfind : db.tasks.find? (fun r => decide (r.ID = id)) = some row) :
    gorm.First id db = (.ok row, db) := by
  simp only [gorm.First, hup, hfind]

/-- A row stays the first of its identifier when the store deletes another
identifier. -/
theorem find_after_Delete (x other : UUID) (db : DB) (hne : other ≠ x) :
    (gorm.Delete other db).2.tasks.find? (fun r => decide (r.ID = x)) =
      db.tasks.find? (fun r => decide (r.ID = x)) := by
  unfold gorm.Delete
  cases db.fault with
  | some err => rfl
  | none =>
    simp only
    induction db.tasks with
    | nil => rfl
    | cons r rows ih =>
      simp only [List.filter_cons]
      split_ifs with hk
      · simp only [List.find?_cons]
        rw [ih]
      · have ho : r.ID = other := by simpa using hk
        have hr : ¬ r.ID = x := fun e => hne (ho.symm.trans e)
        rw [ih]
        simp only [List.find?_cons, hr, decide_False]

/-- A row stays the first of its identifier when the store updates another
identifier. -/
theorem find_after_Updates (x other : UUID) (task : Task) (db : DB) (hne : other ≠ x) :
    (gorm.Updates other task db).2.tasks.find? (fun r => decide (r.ID = x)) =
      db.tasks.find? (fun r => decide (r.ID = x)) := by
  unfold gorm.Updates
  split_ifs with hb
  · rfl
  · cases db.fault with
    | some err => rfl
    | none =>
      simp only
      induction db.tasks with
      | nil => rfl
      | cons r rows ih =>
        by_cases hsel : r.ID = other ∧ (task.ID = uuid.Nil ∨ r.ID = task.ID)
        · have hid : (gorm.assign r task db.now).ID = r.ID := by
            simp only [gorm.assign]
            rcases hsel.2 with h0 | h1
            · simp [h0]
            · split_ifs
              · rfl
              · exact h1.symm
          have hrx : ¬ r.ID = x := fun e => hne (hsel.1.symm.trans e)
          simp only [List.map_cons, if_pos hsel, List.find?_cons, hid, hrx, decide_False]
          exact ih
        · simp only [List.map_cons, if_neg hsel, List.find?_cons]
          rw [ih]

/-- A row stays the first of its identifier when the store creates a row. -/
theorem find_after_Create (x : UUID) (task row : Task) (db : DB)
    (hfind : db.tasks.find? (fun r => decide (r.ID = x)) = some row) :
    (gorm.Create task db).2.tasks.find? (fun r => decide (r.ID = x)) = some row := by
  unfold gorm.Create
  cases db.fault with
  | some err => exact hfind
  | none =>
    by_cases hdup : task.ID ∈ db.tasks.map Task.ID
    · simp only [hdup, if_true]
      exact hfind
    · simp only [hdup, if_false, List.find?_append, hfind]
      rfl

theorem gorm_Create_fresh (task : Task) (db : DB) (hup : db.fault = none)
    (hfresh : task.ID ∉ db.tasks.map Task.ID) :
    gorm.Create task db =
      (({ task with
          CreatedAt := if task.CreatedAt = ⟨0⟩ then db.now else task.CreatedAt,
          UpdatedAt := if task.UpdatedAt = ⟨0⟩ then db.now else task.UpdatedAt }, none),
       { db with
         tasks := db.tasks ++
           [{ task with
              CreatedAt := if task.CreatedAt = ⟨0⟩ then db.now else task.CreatedAt,
              UpdatedAt := if task.UpdatedAt = ⟨0⟩ then db.now else task.UpdatedAt }] }) := by
  simp only [gorm.Create, hup, hfresh, if_false]

/-- C14. For a valid input, on a backend that is up, with a clock that is not
at the zero time and a generated identifier that is not nil and not yet in
the table: `CreateTask` answers 201 with a task that has the title,
description and status of the input, the generated identifier and non-zero
timestamps; `GetTaskByID` with that identifier then answers 200 with the same
task, right after the create and in every later state of the store in which
the row is still the one of its identifier, as it is after any create and
after an update or delete of another identifier. -/
theorem create_then_get_spec [UnicodeTables] (FromString : UUIDParser) (c : Context DB) (input : Task)
    (hbody : c.Request.Body = .document input) (hvalid : ValidateStruct input = [])
    (hup : c.store.fault = none) (hnow : c.store.now ≠ ⟨0⟩)
    (hnil : c.NewV7 ≠ uuid.Nil) (hfresh : c.NewV7 ∉ c.store.tasks.map Task.ID) :
    ∃ created : Task,
      (NewTaskHandler NewTaskService).CreateTask c =
        { c with
          written := c.written ++ [{ code := 201, obj := .task created }],
          store := { c.store with tasks := c.store.tasks ++ [created] },
          calls := c.calls ++ [.CreateTask { input with ID := c.NewV7 }] } ∧
      created.ID = c.NewV7 ∧ created.ID ≠ uuid.Nil ∧
      created.Title = input.Title ∧ created.Description = input.Description ∧
      created.Status = input.Status ∧
      created.CreatedAt ≠ ⟨0⟩ ∧ created.UpdatedAt ≠ ⟨0⟩ ∧
      ((NewTaskHandler NewTaskService).CreateTask c).store.fault = none ∧
      ((NewTaskHandler NewTaskService).CreateTask c).store.tasks.find?
        (fun row => decide (row.ID = created.ID)) = some created ∧
      (∀ c2 : Context DB, c2.store.fault = none →
        c2.store.tasks.find? (fun row => decide (row.ID = created.ID)) = some created →
        FromString (c2.Param "taskId") = some created.ID →
        (NewTaskHandler NewTaskService).GetTaskByID FromString c2 =
          { c2 with
            written := c2.written ++ [{ code := 200, obj := .task created }],
            calls := c2.calls ++ [.GetTaskByID created.ID] }) ∧
      (∀ (db : DB) (other : UUID) (task : Task),
        db.tasks.find? (fun row => decide (row.ID = created.ID)) = some created →
        (NewTaskService.CreateTask task db).2.tasks.find?
          (fun row => decide (row.ID = created.ID)) = some created ∧
        (other ≠ created.ID →
          (NewTaskService.UpdateTask other task db).2.tasks.find?
            (fun row => decide (row.ID = created.ID)) = some created ∧
          (NewTaskService.DeleteTask other db).2.tasks.find?
            (fun row => decide (row.ID = created.ID)) = some created)) := by
  have hb : ShouldBindJSON c.Request.Body = .ok input := by
    rw [hbody]; exact ShouldBindJSON_valid input hvalid
  have hcreate := CreateTask_of_bind_ok (NewTaskHandler NewTaskService) c input hb
  have hg : (NewTaskHandler NewTaskService).TaskService.CreateTask
      { input with ID := c.NewV7 } c.store =
        gorm.Create { input with ID := c.NewV7 } c.store := rfl
  rw [hg, gorm_Create_fresh _ _ hup hfresh] at hcreate
  refine ⟨{ input with
            ID := c.NewV7,
            CreatedAt := if input.CreatedAt = ⟨0⟩ then c.store.now else input.CreatedAt,
            UpdatedAt := if input.UpdatedAt = ⟨0⟩ then c.store.now else input.UpdatedAt },
    hcreate, rfl, hnil, rfl, rfl, rfl, ?_, ?_, ?_, ?_, ?_, ?_⟩
  · simp only
    split_ifs with h0
    · exact hnow
    · exact h0
  · simp only
    split_ifs with h0
    · exact hnow
    · exact h0
  · rw [hcreate]
    exact hup
  · rw [hcreate]
    exact find_append_fresh c.store.tasks _ hfresh
  · intro c2 hup2 hfind hid
    have hfirst : (NewTaskHandler NewTaskService).TaskService.GetTaskByID c.NewV7 c2.store =
        (.ok _, c2.store) := gorm_First_of_find c.NewV7 c2.store _ hup2 hfind
    simp only [TaskHandler.GetTaskByID, hid, Context.invoke, hfirst]
    rfl
  · intro db other task hfind
    refine ⟨find_after_Create _ task _ db hfind, fun hne => ⟨?_, ?_⟩⟩
    · exact (find_after_Updates _ other task db hne).trans hfind
    · exact (find_after_Delete _ other db hne).trans hfind

/-- C16. `GetTasks` makes one call of the store's list; when it fails the
answer is 500 with the message "Internal Server Error", otherwise 200 with
the collection the store returned, the same elements in the same order. On an
empty table, with the backend up, the service of the repository returns the
empty collection and the answer is 200 with it. -/
theorem get_tasks_spec (h : TaskHandler σ) (c : Context σ) :
    let after : Context σ :=
      { c with store := (h.TaskService.GetAllTasks c.store).2, calls := c.calls ++ [.GetAllTasks] }
    (∀ err, (h.TaskService.GetAllTasks c.store).1 = .error err →
      h.GetTasks c =
        { after with
          written := c.written ++
            [{ code := 500,
               obj := .response { Message := "Internal Server Error", Messages := none } }] }) ∧
    (∀ tasks, (h.TaskService.GetAllTasks c.store).1 = .ok tasks →
      h.GetTasks c = { after with written := c.written ++ [{ code := 200, obj := .tasks tasks }] }) ∧
    (∀ c2 : Context DB, c2.store.tasks = [] → c2.store.fault = none →
      (NewTaskHandler NewTaskService).GetTasks c2 =
        { c2 with
          written := c2.written ++ [{ code := 200, obj := .tasks [] }],
          calls := c2.calls ++ [.GetAllTasks] }) := by
  intro after
  refine ⟨?_, ?_, ?_⟩
  · intro err he
    simp only [TaskHandler.GetTasks, Context.invoke, he, StatusText_500]
    rfl
  · intro tasks he
    simp only [TaskHandler.GetTasks, Context.invoke, he]
    rfl
  · intro c2 hempty hup
    have hfind : (NewTaskHandler NewTaskService).TaskService.GetAllTasks c2.store =
        (.ok [], c2.store) := by
      show gorm.Find c2.store = _
      simp only [gorm.Find, hup, hempty]
    simp only [TaskHandler.GetTasks, Context.invoke, hfind]
    rfl

/-- C18. `GetHealthz` reads nothing of the request: on every context it adds
the one reply 200 with the envelope whose message is "OK", written on the wire
as the single member `message`, and touches neither the store nor the abort
flag. -/
theorem healthz_spec (h : HealthzHandler) (c : Context σ) :
    h.GetHealthz c =
      { c with
        written := c.written ++
          [{ code := 200, obj := .response { Message := "OK", Messages := none } }] } ∧
    (h.GetHealthz c).calls = c.calls ∧ (h.GetHealthz c).store = c.store ∧
    (h.GetHealthz c).aborted = c.aborted ∧
    Response.Marshal { Message := "OK", Messages := none } = [("message", .string "OK")] :=
  ⟨rfl, rfl, rfl, rfl, by decide⟩

theorem map_eq_self_of_no_match (rows : List Task) (f : Task → Task) (p : Task → Prop)
    [DecidablePred p] (h : ∀ row ∈ rows, ¬ p row) :
    rows.map (fun row => if p row then f row else row) = rows := by
  induction rows with
  | nil => rfl
  | cons r rows ih =>
    have hr : ¬ p r := h r (by simp)
    simp only [List.map_cons, if_neg hr]
    rw [ih (fun row hrow => h row (by simp [hrow]))]

theorem filter_eq_self_of_no_match (rows : List Task) (id : UUID)
    (h : ∀ row ∈ rows, row.ID ≠ id) :
    rows.filter (fun row => decide (row.ID ≠ id)) = rows := by
  rw [List.filter_eq_self]
  intro row hrow
  simpa using h row hrow

/-- C17 (as the code has it). With the backend up, for a supplied task whose
title, description and status are not empty (as they are for every task that
passed validation) and that carries no identifier or the given one: the
store's update replaces the title, description and status of every row with
the given identifier with the supplied values, sets its `updated_at` (and
`created_at` when one is supplied), leaves every other row as it is, and
reports no error; when no row matches the store is left unchanged. The
store's delete removes the rows with the given identifier and no other,
reports no error, and leaves the store unchanged when no row matches. -/
theorem store_update_delete_spec (id : UUID) (task : Task) (db : DB)
    (hup : db.fault = none)
    (hT : task.Title ≠ "") (hD : task.Description ≠ "") (hS : task.Status ≠ "")
    (hID : task.ID = uuid.Nil ∨ task.ID = id) :
    (NewTaskService.UpdateTask id task db).1 = none ∧
    (NewTaskService.UpdateTask id task db).2 =
      { db with
        tasks := db.tasks.map fun row =>
          if row.ID = id then
            { row with
              Title := task.Title, Description := task.Description, Status := task.Status,
              CreatedAt := if task.CreatedAt = ⟨0⟩ then row.CreatedAt else task.CreatedAt,
              UpdatedAt := db.now }
          else row } ∧
    ((∀ row ∈ db.tasks, row.ID ≠ id) → (NewTaskService.UpdateTask id task db).2 = db) ∧
    (NewTaskService.DeleteTask id db).1 = none ∧
    (NewTaskService.DeleteTask id db).2 =
      { db with tasks := db.tasks.filter fun row => decide (row.ID ≠ id) } ∧
    ((∀ row ∈ db.tasks, row.ID ≠ id) → (NewTaskService.DeleteTask id db).2 = db) := by
  have hnb : gorm.allBlank task = false := by
    simp [gorm.allBlank, hT]
  have hrow : ∀ row : Task,
      (if row.ID = id ∧ (task.ID = uuid.Nil ∨ row.ID = task.ID) then
        gorm.assign row task db.now else row) =
      (if row.ID = id then
        { row with
          Title := task.Title, Description := task.Description, Status := task.Status,
          CreatedAt := if task.CreatedAt = ⟨0⟩ then row.CreatedAt else task.CreatedAt,
          UpdatedAt := db.now }
       else row) := by
    intro row
    by_cases hr : row.ID = id
    · have hsel : row.ID = id ∧ (task.ID = uuid.Nil ∨ row.ID = task.ID) := by
        refine ⟨hr, ?_⟩
        rcases hID with h0 | h1
        · exact Or.inl h0
        · exact Or.inr (hr.trans h1.symm)
      have hid2 : (if task.ID = uuid.Nil then row.ID else task.ID) = row.ID := by
        rcases hID with h0 | h1
        · simp [h0]
        · split_ifs
          · rfl
          · exact h1.trans hr.symm
      simp only [if_pos hsel, if_pos hr, gorm.assign, hT, hD, hS, if_false, hid2]
    · have hsel : ¬ (row.ID = id ∧ (task.ID = uuid.Nil ∨ row.ID = task.ID)) := fun h => hr h.1
      simp only [if_neg hsel, if_neg hr]
  have hupd : (NewTaskService.UpdateTask id task db) =
      (none,
        { db with
          tasks := db.tasks.map fun row =>
            if row.ID = id then
              { row with
                Title := task.Title, Description := task.Description, Status := task.Status,
                CreatedAt := if task.CreatedAt = ⟨0⟩ then row.CreatedAt else task.CreatedAt,
                UpdatedAt := db.now }
            else row }) := by
    show gorm.Updates id task db = _
    simp only [gorm.Updates, hup, hnb, hrow]
    rfl
  have hdel : (NewTaskService.DeleteTask id db) =
      (none, { db with tasks := db.tasks.filter fun row => decide (row.ID ≠ id) }) := by
    show gorm.Delete id db = _
    simp only [gorm.Delete, hup]
  refine ⟨by rw [hupd], by rw [hupd], ?_, by rw [hdel], by rw [hdel], ?_⟩
  · intro hno
    rw [hupd]
    simp only
    rw [map_eq_self_of_no_match db.tasks _ (fun row => row.ID = id) hno]
  · intro hno
    rw [hdel]
    simp only
    rw [filter_eq_self_of_no_match db.tasks id hno]

/-! ### The envelope -/

theorem handleValidationError_task_ne_nil [UnicodeTables] (t : Task) (hv : ValidateStruct t ≠ []) :
    handleValidationError (.validation (ValidateStruct t)) ≠ [] := by
  rw [handleValidationError_task]
  intro hnil
  apply hv
  rw [ValidateStruct_nil_iff]
  by_cases h1 : t.Title = "" <;> by_cases h2 : t.Description = "" <;>
    by_cases h3 : t.Status = "" <;>
    by_cases h4 : t.Status = "pending" ∨ t.Status = "in-progress" ∨ t.Status = "completed" <;>
    simp_all

/-- C13. The envelope invariant holds for the replies with a fixed message
and for the 400 reply to a decoded body that fails validation, whose mapping
is not empty. It fails for a body that does not decode: `CreateTask`, and
`UpdateTaskByID` on an identifier the store finds, answer 400 with an
envelope whose message is empty and whose mapping is the empty map, written
on the wire as the single member `messages` with no entry. -/
theorem undecodable_body_envelope [UnicodeTables] :
    (∀ m : String, m ≠ "" →
      Response.ExactlyOnePopulated { Message := m, Messages := none }) ∧
    (∀ t : Task, ValidateStruct t ≠ [] →
      Response.ExactlyOnePopulated
        { Message := "",
          Messages := some (handleValidationError (.validation (ValidateStruct t))) }) ∧
    ((NewTaskHandler (stubService (.ok sampleTask) (.ok [sampleTask]) none)).CreateTask
        (testContext [] [] .undecodable)).written =
      [{ code := 400, obj := .response { Message := "", Messages := some [] } }] ∧
    ((NewTaskHandler (stubService (.ok sampleTask) (.ok [sampleTask]) none)).UpdateTaskByID
        stubParser (testContext [] [("taskId", "7")] .undecodable)).written =
      [{ code := 400, obj := .response { Message := "", Messages := some [] } }] ∧
    Response.Marshal { Message := "", Messages := some [] } = [("messages", .object [])] ∧
    ¬ Response.ExactlyOnePopulated { Message := "", Messages := some [] } := by
  refine ⟨?_, ?_, rfl, rfl, by decide, ?_⟩
  · intro m hm
    exact Or.inl ⟨hm, rfl⟩
  · intro t hv
    exact Or.inr ⟨rfl, _, rfl, handleValidationError_task_ne_nil t hv⟩
  · simp [Response.ExactlyOnePopulated]

/-! ### Concrete instances of the later claims -/

/-- C12, the claim as stated fails: two valid bodies with the same title,
description and status that differ in `created_at` cause different calls of
the store's create, and the service of the repository stores the timestamp
the client supplied; on update the identifier of the body reaches the store
in the task argument. -/
theorem body_timestamps_reach_store :
    ValidateStruct sampleTask = [] ∧
    ValidateStruct { sampleTask with CreatedAt := ⟨5⟩ } = [] ∧
    ((NewTaskHandler (stubService (.ok sampleTask) (.ok []) none)).CreateTask
        (testContext [] [] (.document sampleTask))).calls =
      [.CreateTask { sampleTask with ID := ⟨9⟩ }] ∧
    ((NewTaskHandler (stubService (.ok sampleTask) (.ok []) none)).CreateTask
        (testContext [] [] (.document { sampleTask with CreatedAt := ⟨5⟩ }))).calls =
      [.CreateTask { sampleTask with ID := ⟨9⟩, CreatedAt := ⟨5⟩ }] ∧
    ((NewTaskHandler (stubService (.ok sampleTask) (.ok []) none)).CreateTask
        (testContext [] [] (.document sampleTask))).calls ≠
      ((NewTaskHandler (stubService (.ok sampleTask) (.ok []) none)).CreateTask
        (testContext [] [] (.document { sampleTask with CreatedAt := ⟨5⟩ }))).calls ∧
    ((NewTaskHandler NewTaskService).CreateTask
        (dbContext [] (.document { sampleTask with CreatedAt := ⟨5⟩ }) ⟨9⟩
          { tasks := [], now := ⟨2⟩, fault := none })).store.tasks =
      [{ sampleTask with ID := ⟨9⟩, CreatedAt := ⟨5⟩ }] ∧
    ((NewTaskHandler (stubService (.ok sampleTask) (.ok []) none)).UpdateTaskByID stubParser
        (testContext [] [("taskId", "7")] (.document { sampleTask with ID := ⟨8⟩ }))).calls =
      [.GetTaskByID ⟨7⟩, .UpdateTask ⟨7⟩ { sampleTask with ID := ⟨8⟩ }] := by
  refine ⟨by decide, by decide, by decide, by decide, by decide, by decide, by decide⟩

/-- C17, the claim as stated fails: PUT /tasks/7 with a valid body that
carries the identifier 8 is answered 200 "Task updated successfully", the
store's update is called and reports no error, and the row 7 keeps its title:
no row is changed. At the store itself, an update that supplies an empty
title leaves the title of the matching row as it was. -/
theorem update_with_other_id_changes_nothing :
    ValidateStruct { sampleTask with ID := ⟨8⟩, Title := "new title" } = [] ∧
    ((NewTaskHandler NewTaskService).UpdateTaskByID stubParser
        (dbContext [("taskId", "7")]
          (.document { sampleTask with ID := ⟨8⟩, Title := "new title" }) ⟨9⟩
          { tasks := [sampleTask], now := ⟨2⟩, fault := none })).written =
      [{ code := 200,
         obj := .response { Message := "Task updated successfully", Messages := none } }] ∧
    ((NewTaskHandler NewTaskService).UpdateTaskByID stubParser
        (dbContext [("taskId", "7")]
          (.document { sampleTask with ID := ⟨8⟩, Title := "new title" }) ⟨9⟩
          { tasks := [sampleTask], now := ⟨2⟩, fault := none })).calls =
      [.GetTaskByID ⟨7⟩, .UpdateTask ⟨7⟩ { sampleTask with ID := ⟨8⟩, Title := "new title" }] ∧
    ((NewTaskHandler NewTaskService).UpdateTaskByID stubParser
        (dbContext [("taskId", "7")]
          (.document { sampleTask with ID := ⟨8⟩, Title := "new title" }) ⟨9⟩
          { tasks := [sampleTask], now := ⟨2⟩, fault := none })).store.tasks = [sampleTask] ∧
    NewTaskService.UpdateTask ⟨7⟩ { sampleTask with ID := ⟨8⟩, Title := "new title" }
        { tasks := [sampleTask], now := ⟨2⟩, fault := none } =
      (none, { tasks := [sampleTask], now := ⟨2⟩, fault := none }) ∧
    sampleTask.ID = ⟨7⟩ ∧ sampleTask.Title = "Task 1" ∧
    (NewTaskService.UpdateTask ⟨7⟩
        { ID := ⟨0⟩, Title := "", Description := "new", Status := "completed",
          CreatedAt := ⟨0⟩, UpdatedAt := ⟨0⟩ }
        { tasks := [sampleTask], now := ⟨2⟩, fault := none }).2.tasks =
      [{ sampleTask with Description := "new", Status := "completed", UpdatedAt := ⟨2⟩ }] := by
  refine ⟨by decide, by decide, by decide, by decide, by decide, rfl, rfl, by decide⟩

/-- C4, the claim as stated fails: a document with a non-empty title, a
non-empty description and the status "pending" whose `id` is no UUID does not
decode, so validation does not succeed; `CreateTask` answers 400 and the
mapping of the reply has no entry. -/
theorem undecodable_document_is_rejected :
    Document.text badIdDocument.title = "t" ∧
    Document.text badIdDocument.description = "d" ∧
    Document.text badIdDocument.status = "pending" ∧
    badIdDocument.decode stubParser stubTime = .undecodable ∧
    ((NewTaskHandler (stubService (.ok sampleTask) (.ok []) none)).CreateTask
        (testContext [] [] (badIdDocument.decode stubParser stubTime))).written =
      [{ code := 400, obj := .response { Message := "", Messages := some [] } }] ∧
    ((NewTaskHandler (stubService (.ok sampleTask) (.ok []) none)).CreateTask
        (testContext [] [] (badIdDocument.decode stubParser stubTime))).calls = [] := by
  refine ⟨rfl, rfl, rfl, by decide, by decide, by decide⟩

/-- C5, the claim as stated fails: in the document whose only member is a
title that is a number, description and status are missing, yet the mapping
of the 400 reply has no entry for them: the document does not decode and the
mapping is empty. -/
theorem undecodable_document_has_no_entries :
    numberTitleDocument.description = none ∧ numberTitleDocument.status = none ∧
    numberTitleDocument.decode stubParser stubTime = .undecodable ∧
    ((NewTaskHandler (stubService (.ok sampleTask) (.ok []) none)).CreateTask
        (testContext [] [] (numberTitleDocument.decode stubParser stubTime))).written =
      [{ code := 400, obj := .response { Message := "", Messages := some [] } }] ∧
    StringMap.lookup (handleValidationError .decoding) "description" = none ∧
    StringMap.lookup (handleValidationError .decoding) "status" = none := by
  refine ⟨rfl, rfl, by decide, by decide, by decide, by decide⟩

/-- C4, an instance: the document of the specification without title decodes
and fails validation. -/
theorem Task_validation_spec_witness :
    noTitleDocument.decode stubParser stubTime =
      .document { ID := ⟨0⟩, Title := "", Description := "d", Status := "pending",
                  CreatedAt := ⟨0⟩, UpdatedAt := ⟨0⟩ } ∧
    ¬ (ValidateStruct { ID := ⟨0⟩, Title := "", Description := "d", Status := "pending",
                        CreatedAt := ⟨0⟩, UpdatedAt := ⟨0⟩ } = []) :=
  ⟨rfl, fun hnil =>
    (((Task_validation_spec (σ := Unit) stubParser stubTime noTitleDocument).1 _ rfl).1.mp
      hnil).1 rfl⟩

/-- C5, an instance: the document of the specification without title. -/
theorem validation_mapping_spec_witness :
    noTitleDocument.decode stubParser stubTime =
      .document { ID := ⟨0⟩, Title := "", Description := "d", Status := "pending",
                  CreatedAt := ⟨0⟩, UpdatedAt := ⟨0⟩ } ∧
    ((handleValidationError
      (.validation [{ Field := "Title", Tag := "required", Param := "" }])).map Prod.fst).Nodup :=
  ⟨rfl,
    (validation_mapping_spec stubParser stubTime noTitleDocument
      { ID := ⟨0⟩, Title := "", Description := "d", Status := "pending",
        CreatedAt := ⟨0⟩, UpdatedAt := ⟨0⟩ }
      (.validation [{ Field := "Title", Tag := "required", Param := "" }]) rfl rfl).2.1⟩

/-- C12, an instance: two valid bodies that differ in `id` only cause the same
call of the store's create. -/
theorem store_arguments_spec_witness :
    ValidateStruct sampleTask = [] ∧ ValidateStruct { sampleTask with ID := ⟨8⟩ } = [] ∧
    sampleTask.CreatedAt = ({ sampleTask with ID := ⟨8⟩ } : Task).CreatedAt ∧
    ((NewTaskHandler (stubService (.ok sampleTask) (.ok []) none)).CreateTask
        { testContext [] [] .undecodable with
          Request :=
            { (testContext [] [] .undecodable).Request with Body := .document sampleTask } }).calls =
      ((NewTaskHandler (stubService (.ok sampleTask) (.ok []) none)).CreateTask
        { testContext [] [] .undecodable with
          Request :=
            { (testContext [] [] .undecodable).Request with
              Body := .document { sampleTask with ID := ⟨8⟩ } } }).calls :=
  ⟨by decide, by decide, rfl,
    (store_arguments_spec (NewTaskHandler (stubService (.ok sampleTask) (.ok []) none))
      stubParser (testContext [] [] .undecodable) sampleTask { sampleTask with ID := ⟨8⟩ }
      (by decide) (by decide) rfl rfl rfl rfl rfl).2.1⟩

/-- C14, an instance: the task of the tests, created in an empty table. -/
theorem create_then_get_spec_witness :
    ValidateStruct sampleTask = [] ∧
    (⟨9⟩ : UUID) ≠ uuid.Nil ∧ (⟨2⟩ : Time) ≠ ⟨0⟩ ∧
    ∃ created : Task,
      ((NewTaskHandler NewTaskService).CreateTask
        (dbContext [] (.document sampleTask) ⟨9⟩
          { tasks := [], now := ⟨2⟩, fault := none })).written =
        [{ code := 201, obj := .task created }] ∧
      created.ID = ⟨9⟩ ∧ created.Title = "Task 1" := by
  refine ⟨by decide, by decide, by decide, ?_⟩
  obtain ⟨created, hc, hid, -, ht, -⟩ :=
    create_then_get_spec stubParser
      (dbContext [] (.document sampleTask) ⟨9⟩ { tasks := [], now := ⟨2⟩, fault := none })
      sampleTask rfl (by decide) rfl (by decide) (by decide) (by decide)
  exact ⟨created, by rw [hc]; rfl, hid, ht⟩

/-- C15, an instance: the update of the tests, on a store that finds the task
and accepts the update. -/
theorem update_found_spec_witness :
    stubParser ((testContext [] [("taskId", "7")] (.document sampleTask)).Param "taskId") =
      some ⟨7⟩ ∧
    ShouldBindJSON (testContext [] [("taskId", "7")] (.document sampleTask)).Request.Body =
      .ok sampleTask ∧
    ((NewTaskHandler (stubService (.ok sampleTask) (.ok []) none)).UpdateTaskByID stubParser
        (testContext [] [("taskId", "7")] (.document sampleTask))).written =
      [{ code := 200,
         obj := .response { Message := "Task updated successfully", Messages := none } }] :=
  ⟨by decide, rfl,
    ((update_found_spec (NewTaskHandler (stubService (.ok sampleTask) (.ok []) none)) stubParser
      (testContext [] [("taskId", "7")] (.document sampleTask)) ⟨7⟩ sampleTask (by decide)
      rfl).2 sampleTask rfl).2.2.2 rfl⟩

/-- C17, an instance: a validated task replaces the three fields of the row. -/
theorem store_update_delete_spec_witness :
    ("new title" : String) ≠ "" ∧
    (NewTaskService.UpdateTask ⟨7⟩
        { sampleTask with Title := "new title", Status := "completed" }
        { tasks := [sampleTask], now := ⟨2⟩, fault := none }).2 =
      { tasks := [{ sampleTask with
                    Title := "new title", Status := "completed", UpdatedAt := ⟨2⟩ }],
        now := ⟨2⟩, fault := none } :=
  ⟨by decide,
    (store_update_delete_spec ⟨7⟩ { sampleTask with Title := "new title", Status := "completed" }
      { tasks := [sampleTask], now := ⟨2⟩, fault := none } rfl (by decide) (by decide)
      (by decide) (Or.inr rfl)).2.1⟩

end TaskManager
